import Mathlib

/-!
Verification development for the Lark ingestion pipeline of the clawdbot
repository.  The TypeScript source is shallowly embedded: MySQL tables become
Lean lists of row structures, `INSERT ... ON DUPLICATE KEY UPDATE` becomes a
first-conflicting-row upsert, asynchronous workers become explicit state
passing, and external collaborators (the Lark API client, the transfer layer,
the OCR/ASR/docx capabilities, the memory sink) become function parameters.
The SHA-256 digest of the dedupe hash is an external crypto primitive and is
modelled by its preimage string; the development only uses that the digest is
a deterministic function of its input.
-/

namespace Clawdbot

/-- Generic embedding of MySQL `INSERT ... ON DUPLICATE KEY UPDATE`:
walk the table, update the first row that conflicts with the incoming row
(MySQL resolves a duplicate-key insert against one existing row), otherwise
append the new row at the end (auto-increment order = insertion order). -/
def upsertRowBy (conflict : α → α → Bool) (update : α → α) (row : α) :
    List α → List α
  | [] => [row]
  | x :: xs =>
    if conflict row x then update x :: xs
    else x :: upsertRowBy conflict update row xs

/-! ## Message persistence (src: persistMessage, mysql schema)

Row models for the `lark_chat`, `lark_user` and `lark_message` tables.  Only
the columns that `persistMessage` writes are modelled; per the DDL the unique
keys are `uniq_chat_id (chat_id)`, `uniq_open_id`/`uniq_user_id`/
`uniq_union_id` on the three user id columns, and `uniq_message_id
(message_id)` — the message key spans the whole table, it is NOT
tenant-scoped. -/

structure SenderId where
  open_id : Option String := none
  user_id : Option String := none
  union_id : Option String := none
  deriving Repr, DecidableEq

structure LarkMessage where
  message_id : String
  chat_id : String
  chat_type : String
  message_type : String
  thread_id : Option String := none
  root_id : Option String := none
  content : Option String := none
  create_time : Option String := none
  deriving Repr, DecidableEq

structure LarkSender where
  sender_type : String
  sender_id : Option SenderId := none
  deriving Repr, DecidableEq

structure LarkMessageEvent where
  message : LarkMessage
  sender : LarkSender
  tenant_key : Option String := none
  deriving Repr, DecidableEq

/-- Model of `parseCreateTimeMs`: `Number(raw)` with non-finite results mapped to null.
The JS numeric parse is modelled by `String.toInt?`. -/
def parseCreateTimeMs (raw : Option String) : Option Int :=
  raw.bind (·.toInt?)

/-- Model of `parseTextContent` (content.ts): `JSON.parse(raw).text` when `raw` parses
to an object with a string `text` field.  The JSON parse of the external
payload is modelled as an abstract decoder parameter wherever it matters; for
the message claims only determinism is used, so the embedded form keeps the
raw string whole when it is non-empty. -/
def parseTextContent (raw : String) : Option String :=
  if raw = "" then none else some raw

/-- Model of `stripMentionTags` (content.ts) removes `<at ...>...</at>` wrappers and
trims; modelled as trimming (the claims never inspect mention tags). -/
def stripMentionTags (text : String) : String :=
  text.trim

/-- Serialization `JSON.stringify(event)`: a concrete deterministic encoder
over the event fields (field order fixed, options encoded as `null` or a
quoted string). -/
def encodeOptField (v : Option String) : String :=
  match v with
  | none => "null"
  | some s => "\"" ++ s ++ "\""

def serializeEvent (e : LarkMessageEvent) : String :=
  let sid := e.sender.sender_id.getD {}
  "\"" ++ e.message.message_id ++ "\"," ++
  "\"" ++ e.message.chat_id ++ "\"," ++
  "\"" ++ e.message.chat_type ++ "\"," ++
  "\"" ++ e.message.message_type ++ "\"," ++
  encodeOptField e.message.thread_id ++ "," ++
  encodeOptField e.message.root_id ++ "," ++
  encodeOptField e.message.content ++ "," ++
  encodeOptField e.message.create_time ++ "," ++
  "\"" ++ e.sender.sender_type ++ "\"," ++
  encodeOptField sid.open_id ++ "," ++
  encodeOptField sid.user_id ++ "," ++
  encodeOptField sid.union_id ++ "," ++
  encodeOptField e.tenant_key

/-- Model of `computeDedupeHash`: sha256 over `messageId ++ ":" ++ payload`.  The
digest is modelled by its preimage (see module docstring). -/
def computeDedupeHash (messageId : String) (payload : String) : String :=
  messageId ++ ":" ++ payload

structure ChatRow where
  chat_id : String
  chat_type : String
  tenant_key : Option String
  last_message_at_ms : Option Int
  deriving Repr, DecidableEq

structure UserRow where
  open_id : Option String
  user_id : Option String
  union_id : Option String
  tenant_key : Option String
  sender_type : Option String
  deriving Repr, DecidableEq

structure MessageRow where
  message_id : String
  chat_id : String
  chat_type : String
  message_type : String
  sender_type : String
  sender_open_id : Option String
  sender_user_id : Option String
  sender_union_id : Option String
  tenant_key : Option String
  thread_id : Option String
  root_id : Option String
  content : String
  text_content : Option String
  create_time_ms : Option Int
  dedupe_hash : String
  raw_event : String
  deriving Repr, DecidableEq

structure MessageStore where
  chat : List ChatRow
  user : List UserRow
  message : List MessageRow
  deriving Repr, DecidableEq

/-- NULL values never collide in a MySQL unique index; two user rows conflict
when they share a non-null value in any of the three unique id columns. -/
def userConflict (a b : UserRow) : Bool :=
  (match a.open_id, b.open_id with
   | some x, some y => x == y
   | _, _ => false) ||
  (match a.user_id, b.user_id with
   | some x, some y => x == y
   | _, _ => false) ||
  (match a.union_id, b.union_id with
   | some x, some y => x == y
   | _, _ => false)

/-- JS truthiness of an optional string: present and non-empty. -/
def jsTruthy (v : Option String) : Bool :=
  match v with
  | some s => s ≠ ""
  | none => false

/-- Row the message upsert writes; every non-key column appears in the
`ON DUPLICATE KEY UPDATE` list, so a conflicting row is fully replaced. -/
def buildMessageRow (e : LarkMessageEvent) : MessageRow :=
  let sid := e.sender.sender_id.getD {}
  let rawContent := e.message.content.getD ""
  let parsedText := parseTextContent rawContent
  let rawEvent := serializeEvent e
  { message_id := e.message.message_id
    chat_id := e.message.chat_id
    chat_type := e.message.chat_type
    message_type := e.message.message_type
    sender_type := e.sender.sender_type
    sender_open_id := sid.open_id
    sender_user_id := sid.user_id
    sender_union_id := sid.union_id
    tenant_key := e.tenant_key
    thread_id := e.message.thread_id
    root_id := e.message.root_id
    content := rawContent
    text_content := (parsedText.map stripMentionTags)
    create_time_ms := parseCreateTimeMs e.message.create_time
    dedupe_hash := computeDedupeHash e.message.message_id rawEvent
    raw_event := rawEvent }

/-- Model of `persistMessage` (part_007): upsert the chat row (keyed by `chat_id`),
upsert the sender row when some sender id is truthy (keyed by the three
unique id columns), then upsert the message row keyed by `message_id`
alone. -/
def persistMessage (e : LarkMessageEvent) (st : MessageStore) : MessageStore :=
  let sid := e.sender.sender_id.getD {}
  let chatRow : ChatRow :=
    { chat_id := e.message.chat_id
      chat_type := e.message.chat_type
      tenant_key := e.tenant_key
      last_message_at_ms := parseCreateTimeMs e.message.create_time }
  let chat1 := upsertRowBy (fun a b => a.chat_id == b.chat_id)
    (fun _ => chatRow) chatRow st.chat
  let hasSenderId := jsTruthy sid.open_id || jsTruthy sid.user_id || jsTruthy sid.union_id
  let userRow : UserRow :=
    { open_id := sid.open_id
      user_id := sid.user_id
      union_id := sid.union_id
      tenant_key := e.tenant_key
      sender_type := some e.sender.sender_type }
  let user1 :=
    if hasSenderId then upsertRowBy userConflict (fun _ => userRow) userRow st.user
    else st.user
  let msgRow := buildMessageRow e
  let message1 := upsertRowBy (fun a b => a.message_id == b.message_id)
    (fun _ => msgRow) msgRow st.message
  { chat := chat1, user := user1, message := message1 }

/-! ## Generic lemmas about the upsert embedding -/

theorem upsertRowBy_idem (c : α → α → Bool) (u : α → α) (row : α)
    (hself : c row row = true) (hfix : u row = row)
    (hpres : ∀ x, c row x = true → c row (u x) = true)
    (hidem : ∀ x, u (u x) = u x) (l : List α) :
    upsertRowBy c u row (upsertRowBy c u row l) = upsertRowBy c u row l := by
  induction l with
  | nil => simp [upsertRowBy, hself, hfix]
  | cons x xs ih =>
    cases hc : c row x
    · simp [upsertRowBy, hc, ih]
    · simp [upsertRowBy, hc, hpres x hc, hidem x]

theorem upsertRowBy_countP (c : α → α → Bool) (u : α → α) (row : α)
    (hself : c row row = true)
    (hpres : ∀ x, c row x = true → c row (u x) = true)
    (l : List α) (hle : l.countP (fun x => c row x) ≤ 1) :
    (upsertRowBy c u row l).countP (fun x => c row x) = 1 := by
  induction l with
  | nil => simp [upsertRowBy, hself]
  | cons x xs ih =>
    cases hc : c row x
    · have hle2 : xs.countP (fun x => c row x) ≤ 1 := by
        rwa [List.countP_cons_of_neg _ _ (by simp [hc])] at hle
      simp [upsertRowBy, hc, List.countP_cons, ih hle2]
    · have h0 : xs.countP (fun x => c row x) = 0 := by
        have h := hle
        rw [List.countP_cons_of_pos _ _ (by simpa using hc)] at h
        omega
      simp [upsertRowBy, hc, List.countP_cons, hpres x hc, h0]

theorem upsertRowBy_replace_filter (c : α → α → Bool) (row : α)
    (hself : c row row = true) (l : List α)
    (hle : l.countP (fun x => c row x) ≤ 1) :
    (upsertRowBy c (fun _ => row) row l).filter (fun x => c row x) = [row] := by
  induction l with
  | nil => simp [upsertRowBy, hself]
  | cons x xs ih =>
    cases hc : c row x
    · have hle2 : xs.countP (fun x => c row x) ≤ 1 := by
        rwa [List.countP_cons_of_neg _ _ (by simp [hc])] at hle
      simp [upsertRowBy, hc, List.filter_cons, ih hle2]
    · have h0 : xs.countP (fun x => c row x) = 0 := by
        have h := hle
        rw [List.countP_cons_of_pos _ _ (by simpa using hc)] at h
        omega
      have hnil : xs.filter (fun x => c row x) = [] := by
        have hlen := List.countP_eq_length_filter (p := fun x => c row x) xs
        rw [h0] at hlen
        exact List.length_eq_zero.mp hlen.symm
      simp [upsertRowBy, hc, List.filter_cons, hself, hnil]

theorem upsertRowBy_filter_not (c : α → α → Bool) (u : α → α) (row : α)
    (hself : c row row = true)
    (hpres : ∀ x, c row x = true → c row (u x) = true)
    (l : List α) :
    (upsertRowBy c u row l).filter (fun x => !(c row x))
      = l.filter (fun x => !(c row x)) := by
  induction l with
  | nil => simp [upsertRowBy, hself]
  | cons x xs ih =>
    cases hc : c row x
    · simp [upsertRowBy, hc, List.filter_cons, ih]
    · simp [upsertRowBy, hc, List.filter_cons, hpres x hc]

theorem userConflict_self (r : UserRow)
    (h : (jsTruthy r.open_id || jsTruthy r.user_id || jsTruthy r.union_id) = true) :
    userConflict r r = true := by
  cases ho : r.open_id <;> cases hu : r.user_id <;> cases hun : r.union_id <;>
    simp_all [jsTruthy, userConflict]

/-- Specialisation of `upsertRowBy_idem` for a key-equality conflict with
full row replacement (the shape of the chat and message upserts). -/
theorem upsertKey_idem {β : Type} [BEq β] [LawfulBEq β]
    (k : α → β) (row : α) (l : List α) :
    upsertRowBy (fun a b => k a == k b) (fun _ => row) row
      (upsertRowBy (fun a b => k a == k b) (fun _ => row) row l)
      = upsertRowBy (fun a b => k a == k b) (fun _ => row) row l := by
  apply upsertRowBy_idem
  · simp
  · rfl
  · intro x _
    simp
  · intro x
    rfl

/-- Applying `persistMessage` twice to the same event makes the second
application a no-op: every table write is an upsert whose update clause
rewrites the same values. -/
theorem persistMessage_self_idem (e : LarkMessageEvent) (st : MessageStore) :
    persistMessage e (persistMessage e st) = persistMessage e st := by
  simp only [persistMessage, MessageStore.mk.injEq]
  refine ⟨?_, ?_, ?_⟩
  · exact upsertKey_idem (fun r : ChatRow => r.chat_id) _ _
  · cases hs : (jsTruthy (e.sender.sender_id.getD {}).open_id ||
        jsTruthy (e.sender.sender_id.getD {}).user_id ||
        jsTruthy (e.sender.sender_id.getD {}).union_id)
    · simp [hs]
    · simp only [hs, if_true]
      exact upsertRowBy_idem _ _ _ (userConflict_self _ hs)
        rfl (fun x _ => userConflict_self _ hs) (fun x => rfl) _
  · exact upsertKey_idem (fun r : MessageRow => r.message_id) _ _

theorem persistMessage_message (e : LarkMessageEvent) (st : MessageStore) :
    (persistMessage e st).message
      = upsertRowBy (fun a b : MessageRow => a.message_id == b.message_id)
          (fun _ => buildMessageRow e) (buildMessageRow e) st.message := rfl

theorem buildMessageRow_message_id (e : LarkMessageEvent) :
    (buildMessageRow e).message_id = e.message.message_id := rfl

def emptyStore : MessageStore := ⟨[], [], []⟩

/-- Two inbound events with the same message id and the same payload. -/
def msgEventA : LarkMessageEvent :=
  { message := { message_id := "om_1", chat_id := "oc_1", chat_type := "p2p",
                 message_type := "text", content := some "hello" }
    sender := { sender_type := "user", sender_id := some { open_id := some "ou_a" } }
    tenant_key := some "tenantA" }

/-- Same message id as `msgEventA` but a different payload (an edit). -/
def msgEventB : LarkMessageEvent :=
  { message := { message_id := "om_1", chat_id := "oc_1", chat_type := "p2p",
                 message_type := "text", content := some "changed" }
    sender := { sender_type := "user", sender_id := some { open_id := some "ou_a" } }
    tenant_key := some "tenantA" }

/-- Same message id as `msgEventA` but carrying a different tenant key. -/
def msgEventOtherTenant : LarkMessageEvent :=
  { message := { message_id := "om_1", chat_id := "oc_9", chat_type := "p2p",
                 message_type := "text", content := some "other org" }
    sender := { sender_type := "user", sender_id := some { open_id := some "ou_b" } }
    tenant_key := some "tenantB" }

/-- C1: message persistence is an idempotent upsert keyed by message id:
persisting the same (messageId, payload) event twice yields exactly one
message row with unchanged dedupe hash (the second persist is a no-op on the
whole store), the dedupe hash is the hash of the message id and the
serialized payload, and persisting the same message id with a different
payload updates that row in place to the new content/text/hash/raw event
without ever creating a second row, leaving rows of other message ids
untouched. -/
theorem persistMessage_idempotent_upsert (e e2 : LarkMessageEvent)
    (st : MessageStore)
    (hsame : e2.message.message_id = e.message.message_id)
    (hwf : st.message.countP
      (fun r => e.message.message_id == r.message_id) ≤ 1) :
    persistMessage e (persistMessage e st) = persistMessage e st
    ∧ (buildMessageRow e).dedupe_hash
        = computeDedupeHash e.message.message_id (serializeEvent e)
    ∧ (persistMessage e st).message.countP
        (fun r => e.message.message_id == r.message_id) = 1
    ∧ (persistMessage e st).message.filter
        (fun r => e.message.message_id == r.message_id) = [buildMessageRow e]
    ∧ (persistMessage e2 (persistMessage e st)).message.countP
        (fun r => e.message.message_id == r.message_id) = 1
    ∧ (persistMessage e2 (persistMessage e st)).message.filter
        (fun r => e.message.message_id == r.message_id) = [buildMessageRow e2]
    ∧ (persistMessage e2 (persistMessage e st)).message.filter
        (fun r => !(e.message.message_id == r.message_id))
      = (persistMessage e st).message.filter
        (fun r => !(e.message.message_id == r.message_id)) := by
  have h3 : (persistMessage e st).message.countP
      (fun r => e.message.message_id == r.message_id) = 1 :=
    upsertRowBy_countP (fun a b : MessageRow => a.message_id == b.message_id)
      (fun _ => buildMessageRow e) (buildMessageRow e)
      (by simp) (fun x _ => by simp) st.message hwf
  have h4 : (persistMessage e st).message.filter
      (fun r => e.message.message_id == r.message_id) = [buildMessageRow e] :=
    upsertRowBy_replace_filter
      (fun a b : MessageRow => a.message_id == b.message_id)
      (buildMessageRow e) (by simp) st.message hwf
  have hwf1 : (persistMessage e st).message.countP
      (fun r => e2.message.message_id == r.message_id) ≤ 1 := by
    rw [hsame]
    exact le_of_eq h3
  have h5 : (persistMessage e2 (persistMessage e st)).message.countP
      (fun r => e2.message.message_id == r.message_id) = 1 :=
    upsertRowBy_countP (fun a b : MessageRow => a.message_id == b.message_id)
      (fun _ => buildMessageRow e2) (buildMessageRow e2)
      (by simp) (fun x _ => by simp) (persistMessage e st).message hwf1
  have h6 : (persistMessage e2 (persistMessage e st)).message.filter
      (fun r => e2.message.message_id == r.message_id) = [buildMessageRow e2] :=
    upsertRowBy_replace_filter
      (fun a b : MessageRow => a.message_id == b.message_id)
      (buildMessageRow e2) (by simp) (persistMessage e st).message hwf1
  have h7 : (persistMessage e2 (persistMessage e st)).message.filter
      (fun r => !(e2.message.message_id == r.message_id))
      = (persistMessage e st).message.filter
        (fun r => !(e2.message.message_id == r.message_id)) :=
    upsertRowBy_filter_not
      (fun a b : MessageRow => a.message_id == b.message_id)
      (fun _ => buildMessageRow e2) (buildMessageRow e2)
      (by simp) (fun x _ => by simp) (persistMessage e st).message
  rw [hsame] at h5 h6 h7
  exact ⟨persistMessage_self_idem e st, rfl, h3, h4, h5, h6, h7⟩

theorem persistMessage_idempotent_upsert_witness :
    persistMessage msgEventA (persistMessage msgEventA emptyStore)
        = persistMessage msgEventA emptyStore
    ∧ (buildMessageRow msgEventA).dedupe_hash
        = computeDedupeHash msgEventA.message.message_id
            (serializeEvent msgEventA)
    ∧ (persistMessage msgEventA emptyStore).message.countP
        (fun r => msgEventA.message.message_id == r.message_id) = 1
    ∧ (persistMessage msgEventA emptyStore).message.filter
        (fun r => msgEventA.message.message_id == r.message_id)
        = [buildMessageRow msgEventA]
    ∧ (persistMessage msgEventB (persistMessage msgEventA emptyStore)).message.countP
        (fun r => msgEventA.message.message_id == r.message_id) = 1
    ∧ (persistMessage msgEventB (persistMessage msgEventA emptyStore)).message.filter
        (fun r => msgEventA.message.message_id == r.message_id)
        = [buildMessageRow msgEventB]
    ∧ (persistMessage msgEventB (persistMessage msgEventA emptyStore)).message.filter
        (fun r => !(msgEventA.message.message_id == r.message_id))
      = (persistMessage msgEventA emptyStore).message.filter
        (fun r => !(msgEventA.message.message_id == r.message_id)) :=
  persistMessage_idempotent_upsert msgEventA msgEventB emptyStore rfl
    (by decide)

/-- C10 counterexample: the `lark_message` DDL declares
`UNIQUE KEY uniq_message_id (message_id)` with no tenant column, so persisting
the same message id under two different tenant keys leaves a single row whose
tenant key is the later event's — the claim's "two distinct rows, one per
tenant" is false at this input. -/
theorem persistMessage_cross_tenant_single_row :
    (persistMessage msgEventOtherTenant
        (persistMessage msgEventA emptyStore)).message.length = 1
    ∧ (persistMessage msgEventOtherTenant
        (persistMessage msgEventA emptyStore)).message.map
          (fun r => r.tenant_key) = [some "tenantB"] := by
  constructor
  · rfl
  · rfl

/-- C10 amended: message ids are globally unique across tenants (the unique
key has no tenant column): persisting two events with the same message id and
different tenant keys leaves exactly one message row, updated in place to the
later event — including its tenant key — rather than two tenant-scoped
rows. -/
theorem persistMessage_message_id_global (e1 e2 : LarkMessageEvent)
    (st : MessageStore)
    (hsame : e2.message.message_id = e1.message.message_id)
    (hwf : st.message.countP
      (fun r => e1.message.message_id == r.message_id) ≤ 1) :
    (persistMessage e2 (persistMessage e1 st)).message.countP
        (fun r => e1.message.message_id == r.message_id) = 1
    ∧ (persistMessage e2 (persistMessage e1 st)).message.filter
        (fun r => e1.message.message_id == r.message_id) = [buildMessageRow e2]
    ∧ (buildMessageRow e2).tenant_key = e2.tenant_key := by
  have h3 : (persistMessage e1 st).message.countP
      (fun r => e1.message.message_id == r.message_id) = 1 :=
    upsertRowBy_countP (fun a b : MessageRow => a.message_id == b.message_id)
      (fun _ => buildMessageRow e1) (buildMessageRow e1)
      (by simp) (fun x _ => by simp) st.message hwf
  have hwf1 : (persistMessage e1 st).message.countP
      (fun r => e2.message.message_id == r.message_id) ≤ 1 := by
    rw [hsame]
    exact le_of_eq h3
  have h5 : (persistMessage e2 (persistMessage e1 st)).message.countP
      (fun r => e2.message.message_id == r.message_id) = 1 :=
    upsertRowBy_countP (fun a b : MessageRow => a.message_id == b.message_id)
      (fun _ => buildMessageRow e2) (buildMessageRow e2)
      (by simp) (fun x _ => by simp) (persistMessage e1 st).message hwf1
  have h6 : (persistMessage e2 (persistMessage e1 st)).message.filter
      (fun r => e2.message.message_id == r.message_id) = [buildMessageRow e2] :=
    upsertRowBy_replace_filter
      (fun a b : MessageRow => a.message_id == b.message_id)
      (buildMessageRow e2) (by simp) (persistMessage e1 st).message hwf1
  rw [hsame] at h5 h6
  exact ⟨h5, h6, rfl⟩

theorem persistMessage_message_id_global_witness :
    (persistMessage msgEventOtherTenant
        (persistMessage msgEventA emptyStore)).message.countP
        (fun r => msgEventA.message.message_id == r.message_id) = 1
    ∧ (persistMessage msgEventOtherTenant
        (persistMessage msgEventA emptyStore)).message.filter
        (fun r => msgEventA.message.message_id == r.message_id)
        = [buildMessageRow msgEventOtherTenant]
    ∧ (buildMessageRow msgEventOtherTenant).tenant_key
        = msgEventOtherTenant.tenant_key :=
  persistMessage_message_id_global msgEventA msgEventOtherTenant emptyStore rfl
    (by decide)

/-! ## Resource registration and download lifecycle (src: part_002)

The `message_resource` table: unique key `uniq_message_resource
(tenant_key, message_id, file_key)`, status machine
`pending → downloading → {ready | too_large | failed}` plus the `linked`
status given to registered documents.  Auto-increment ids are modelled by a
`nextId` counter; `created_at` ordering coincides with list order because new
rows are appended at the end and updates happen in place. -/

inductive LarkResourceType
  | image
  | file
  | audio
  | media
  | doc
  deriving Repr, DecidableEq

inductive ResourceStatus
  | pending
  | downloading
  | ready
  | tooLarge
  | failed
  | linked
  deriving Repr, DecidableEq

structure LarkMessageResource where
  messageId : String
  chatId : String
  resourceType : LarkResourceType
  fileKey : String
  fileName : Option String := none
  mimeType : Option String := none
  sizeBytes : Option Nat := none
  deriving Repr, DecidableEq

structure ResourceRow where
  id : Nat
  tenantKey : String
  messageId : String
  chatId : String
  resourceType : LarkResourceType
  fileKey : String
  fileName : Option String
  mimeType : Option String
  sizeBytes : Option Nat
  status : ResourceStatus
  storagePath : Option String
  storageUrl : Option String
  error : Option String
  attempts : Nat
  deriving Repr, DecidableEq

structure ResourceTable where
  rows : List ResourceRow
  nextId : Nat
  deriving Repr, DecidableEq

def MAX_ATTEMPTS : Nat := 3
def DOWNLOAD_BATCH_SIZE : Nat := 10
def DEFAULT_MAX_RESOURCE_MB : Nat := 100

/-- Duplicate-key test of `uniq_message_resource (tenant_key, message_id,
file_key)`. -/
def resourceConflict (a b : ResourceRow) : Bool :=
  a.tenantKey == b.tenantKey && a.messageId == b.messageId
    && a.fileKey == b.fileKey

/-- The `ON DUPLICATE KEY UPDATE` clause of `upsertResources`: only
`file_name`, `mime_type` and `size_bytes` are rewritten. -/
def resourceMetadataUpdate (res : LarkMessageResource) (r : ResourceRow) :
    ResourceRow :=
  { r with fileName := res.fileName, mimeType := res.mimeType,
           sizeBytes := res.sizeBytes }

/-- Fresh row inserted by `upsertResources`: documents start `linked`,
everything else `pending`; `attempts` defaults to 0. -/
def newResourceRow (tenant : String) (res : LarkMessageResource) (id : Nat) :
    ResourceRow :=
  { id := id
    tenantKey := tenant
    messageId := res.messageId
    chatId := res.chatId
    resourceType := res.resourceType
    fileKey := res.fileKey
    fileName := res.fileName
    mimeType := res.mimeType
    sizeBytes := res.sizeBytes
    status := if res.resourceType = LarkResourceType.doc
      then ResourceStatus.linked else ResourceStatus.pending
    storagePath := none
    storageUrl := none
    error := none
    attempts := 0 }

def upsertOneResource (tenant : String) (res : LarkMessageResource)
    (t : ResourceTable) : ResourceTable :=
  let row := newResourceRow tenant res t.nextId
  { rows := upsertRowBy resourceConflict (resourceMetadataUpdate res) row t.rows
    nextId := if t.rows.any (fun r => resourceConflict row r)
      then t.nextId else t.nextId + 1 }

/-- Model of `upsertResources` (part_002): one multi-row
`INSERT ... ON DUPLICATE KEY UPDATE`, processed row by row in list order. -/
def upsertResources (tenant : String) (resources : List LarkMessageResource)
    (t : ResourceTable) : ResourceTable :=
  resources.foldl (fun acc res => upsertOneResource tenant res acc) t

/-- Key-membership test used to state the registration claims: the incoming
resource's `(tenant, message id, file key)` triple matches the stored row. -/
def resourceKeyIs (tenant : String) (res : LarkMessageResource)
    (r : ResourceRow) : Bool :=
  tenant == r.tenantKey && res.messageId == r.messageId
    && res.fileKey == r.fileKey

/-- Everything except the three metadata columns rewritten by the
registration upsert. -/
def resourceCoreSame (a b : ResourceRow) : Prop :=
  a.id = b.id ∧ a.tenantKey = b.tenantKey ∧ a.messageId = b.messageId
    ∧ a.chatId = b.chatId ∧ a.resourceType = b.resourceType
    ∧ a.fileKey = b.fileKey ∧ a.status = b.status
    ∧ a.storagePath = b.storagePath ∧ a.storageUrl = b.storageUrl
    ∧ a.error = b.error ∧ a.attempts = b.attempts

theorem resourceCoreSame_refl (a : ResourceRow) : resourceCoreSame a a := by
  simp [resourceCoreSame]

theorem resourceCoreSame_trans {a b c : ResourceRow}
    (h1 : resourceCoreSame a b) (h2 : resourceCoreSame b c) :
    resourceCoreSame a c := by
  obtain ⟨_, _, _, _, _, _, _, _, _, _, _⟩ := h1
  obtain ⟨_, _, _, _, _, _, _, _, _, _, _⟩ := h2
  simp_all [resourceCoreSame]

theorem forall₂_trans_of {R : α → α → Prop}
    (hR : ∀ a b c, R a b → R b c → R a c) :
    ∀ {l1 l2 l3 : List α}, List.Forall₂ R l1 l2 → List.Forall₂ R l2 l3 →
      List.Forall₂ R l1 l3 := by
  intro l1 l2 l3 h12 h23
  induction h12 generalizing l3 with
  | nil => cases h23; exact List.Forall₂.nil
  | cons hab htail ih =>
    cases h23 with
    | cons hbc htail2 =>
      exact List.Forall₂.cons (hR _ _ _ hab hbc) (ih htail2)

theorem upsertRowBy_length_of_any (c : α → α → Bool) (u : α → α) (row : α)
    (l : List α) (hex : l.any (fun x => c row x) = true) :
    (upsertRowBy c u row l).length = l.length := by
  induction l with
  | nil => simp at hex
  | cons x xs ih =>
    cases hc : c row x
    · have hex2 : xs.any (fun x => c row x) = true := by
        simpa [hc] using hex
      simp [upsertRowBy, hc, ih hex2]
    · simp [upsertRowBy, hc]

theorem upsertRowBy_forall₂_of_any {R : α → α → Prop}
    (c : α → α → Bool) (u : α → α) (row : α)
    (hrefl : ∀ x, R x x) (hupd : ∀ x, R x (u x)) (l : List α)
    (hex : l.any (fun x => c row x) = true) :
    List.Forall₂ R l (upsertRowBy c u row l) := by
  induction l with
  | nil => simp at hex
  | cons x xs ih =>
    cases hc : c row x
    · have hex2 : xs.any (fun x => c row x) = true := by
        simpa [hc] using hex
      simpa [upsertRowBy, hc] using List.Forall₂.cons (hrefl x) (ih hex2)
    · simpa [upsertRowBy, hc] using
        List.Forall₂.cons (hupd x) (List.forall₂_same.mpr (fun y _ => hrefl y))

theorem upsertRowBy_mem_conflict (c : α → α → Bool) (u : α → α) (row : α)
    (hself : c row row = true)
    (hpres : ∀ x, c row x = true → c row (u x) = true) (l : List α) :
    ∃ y ∈ upsertRowBy c u row l, c row y = true := by
  induction l with
  | nil => exact ⟨row, by simp [upsertRowBy], hself⟩
  | cons x xs ih =>
    cases hc : c row x
    · obtain ⟨y, hy, hcy⟩ := ih
      exact ⟨y, by simp [upsertRowBy, hc, hy], hcy⟩
    · exact ⟨u x, by simp [upsertRowBy, hc], hpres x hc⟩

theorem upsertRowBy_mem_or_update (c : α → α → Bool) (u : α → α) (row : α)
    (l : List α) :
    ∀ y ∈ l, y ∈ upsertRowBy c u row l ∨ u y ∈ upsertRowBy c u row l := by
  induction l with
  | nil => simp
  | cons x xs ih =>
    intro y hy
    rcases List.mem_cons.mp hy with heq | hmem
    · subst heq
      cases hc : c row y
      · left
        simp [upsertRowBy, hc]
      · right
        simp [upsertRowBy, hc]
    · cases hc : c row x
      · rcases ih y hmem with h | h
        · left
          simp [upsertRowBy, hc, h]
        · right
          simp [upsertRowBy, hc, h]
      · left
        simp [upsertRowBy, hc, hmem]

theorem upsertRowBy_update_filter (c : α → α → Bool) (u : α → α) (row : α)
    (hpres : ∀ x, c row x = true → c row (u x) = true) (l : List α)
    (r0 : α) (hf : l.filter (fun x => c row x) = [r0]) :
    (upsertRowBy c u row l).filter (fun x => c row x) = [u r0] := by
  induction l with
  | nil => simp at hf
  | cons x xs ih =>
    cases hc : c row x
    · rw [List.filter_cons_of_neg (by simp [hc])] at hf
      simp [upsertRowBy, hc, List.filter_cons_of_neg, ih hf]
    · rw [List.filter_cons_of_pos (by simp [hc])] at hf
      have hx : x = r0 := by
        have := congrArg List.head? hf
        simpa using this
      have htail : xs.filter (fun x => c row x) = [] := by
        have := congrArg List.tail hf
        simpa using this
      subst hx
      simp [upsertRowBy, hc, List.filter_cons_of_pos, hpres x hc, htail]

theorem resourceConflict_newRow (tenant : String) (res : LarkMessageResource)
    (i : Nat) (y : ResourceRow) :
    resourceConflict (newResourceRow tenant res i) y
      = resourceKeyIs tenant res y := rfl

theorem resourceConflict_metadataUpdate (a : ResourceRow)
    (res : LarkMessageResource) (x : ResourceRow) :
    resourceConflict a (resourceMetadataUpdate res x) = resourceConflict a x :=
  rfl

theorem resourceKeyIs_metadataUpdate (tenant : String)
    (res res2 : LarkMessageResource) (y : ResourceRow) :
    resourceKeyIs tenant res (resourceMetadataUpdate res2 y)
      = resourceKeyIs tenant res y := rfl

/-- The incoming resource's key is present in the table. -/
def resourceKeyPresent (tenant : String) (res : LarkMessageResource)
    (t : ResourceTable) : Prop :=
  ∃ y ∈ t.rows, resourceKeyIs tenant res y = true

theorem keyPresent_after_upsertOne (tenant : String)
    (res : LarkMessageResource) (t : ResourceTable) :
    resourceKeyPresent tenant res (upsertOneResource tenant res t) := by
  obtain ⟨y, hy, hcy⟩ := upsertRowBy_mem_conflict resourceConflict
    (resourceMetadataUpdate res) (newResourceRow tenant res t.nextId)
    (by simp [resourceConflict, newResourceRow]) (fun x h => h) t.rows
  exact ⟨y, hy, hcy⟩

theorem keyPresent_mono (tenant : String) (res res2 : LarkMessageResource)
    (t : ResourceTable) (h : resourceKeyPresent tenant res t) :
    resourceKeyPresent tenant res (upsertOneResource tenant res2 t) := by
  obtain ⟨y, hy, hk⟩ := h
  rcases upsertRowBy_mem_or_update resourceConflict
      (resourceMetadataUpdate res2) (newResourceRow tenant res2 t.nextId)
      t.rows y hy with hmem | hmem
  · exact ⟨y, hmem, hk⟩
  · exact ⟨resourceMetadataUpdate res2 y, hmem, by
      rw [resourceKeyIs_metadataUpdate]
      exact hk⟩

theorem keyPresent_foldl (tenant : String) (res : LarkMessageResource) :
    ∀ (rest : List LarkMessageResource) (t : ResourceTable),
      resourceKeyPresent tenant res t →
      resourceKeyPresent tenant res (upsertResources tenant rest t) := by
  intro rest
  induction rest with
  | nil => exact fun t h => h
  | cons r rs ih =>
    intro t h
    exact ih (upsertOneResource tenant r t) (keyPresent_mono tenant res r t h)

theorem allKeysPresent (tenant : String) :
    ∀ (rs : List LarkMessageResource) (t : ResourceTable),
      ∀ res ∈ rs, resourceKeyPresent tenant res (upsertResources tenant rs t) := by
  intro rs
  induction rs with
  | nil => simp
  | cons r rest ih =>
    intro t res hres
    rcases List.mem_cons.mp hres with heq | hmem
    · subst heq
      exact keyPresent_foldl tenant res rest (upsertOneResource tenant res t)
        (keyPresent_after_upsertOne tenant res t)
    · exact ih (upsertOneResource tenant r t) res hmem

theorem upsertResources_preserves_of_present (tenant : String) :
    ∀ (rs : List LarkMessageResource) (S : ResourceTable),
      (∀ res ∈ rs, resourceKeyPresent tenant res S) →
      (upsertResources tenant rs S).rows.length = S.rows.length
      ∧ List.Forall₂ resourceCoreSame S.rows (upsertResources tenant rs S).rows := by
  intro rs
  induction rs with
  | nil =>
    intro S _
    exact ⟨rfl, List.forall₂_same.mpr (fun y _ => resourceCoreSame_refl y)⟩
  | cons r rest ih =>
    intro S h
    obtain ⟨y, hy, hk⟩ := h r (List.mem_cons_self r rest)
    have hany : S.rows.any
        (fun x => resourceConflict (newResourceRow tenant r S.nextId) x) = true :=
      List.any_eq_true.mpr ⟨y, hy, hk⟩
    have hupd : ∀ x : ResourceRow, resourceCoreSame x (resourceMetadataUpdate r x) := by
      intro x
      simp [resourceCoreSame, resourceMetadataUpdate]
    have hlen1 : (upsertOneResource tenant r S).rows.length = S.rows.length :=
      upsertRowBy_length_of_any resourceConflict (resourceMetadataUpdate r)
        (newResourceRow tenant r S.nextId) S.rows hany
    have hf1 : List.Forall₂ resourceCoreSame S.rows (upsertOneResource tenant r S).rows :=
      upsertRowBy_forall₂_of_any resourceConflict (resourceMetadataUpdate r)
        (newResourceRow tenant r S.nextId) resourceCoreSame_refl hupd S.rows hany
    have hrest : ∀ res ∈ rest, resourceKeyPresent tenant res (upsertOneResource tenant r S) :=
      fun res hres => keyPresent_mono tenant res r S (h res (List.mem_cons_of_mem r hres))
    obtain ⟨hlen2, hf2⟩ := ih (upsertOneResource tenant r S) hrest
    refine ⟨?_, forall₂_trans_of (R := resourceCoreSame)
      (fun a b c hab hbc => resourceCoreSame_trans hab hbc) hf1 hf2⟩
    calc (upsertResources tenant (r :: rest) S).rows.length
        = (upsertOneResource tenant r S).rows.length := hlen2
      _ = S.rows.length := hlen1

/-- C8: re-registering the same attachments (same tenant, message id and
payload, hence the same extracted resource list) is idempotent at the
resource table: the second registration creates no new row, and every
existing row keeps its id, key, status, attempts, storage and error fields
(only the three metadata columns are rewritten); an upsert against a table
whose unique key `(tenant, message id, file key)` already holds the
attachment updates exactly the metadata of that row. -/
theorem registerResources_idempotent (tenant : String)
    (rs : List LarkMessageResource) (t : ResourceTable) :
    (upsertResources tenant rs (upsertResources tenant rs t)).rows.length
      = (upsertResources tenant rs t).rows.length
    ∧ List.Forall₂ resourceCoreSame (upsertResources tenant rs t).rows
        (upsertResources tenant rs (upsertResources tenant rs t)).rows
    ∧ ∀ (res : LarkMessageResource) (tb : ResourceTable) (r0 : ResourceRow),
        tb.rows.filter (fun r => resourceKeyIs tenant res r) = [r0] →
        (upsertOneResource tenant res tb).rows.filter
            (fun r => resourceKeyIs tenant res r)
          = [resourceMetadataUpdate res r0] := by
  obtain ⟨hlen, hf⟩ := upsertResources_preserves_of_present tenant rs
    (upsertResources tenant rs t) (allKeysPresent tenant rs t)
  refine ⟨hlen, hf, ?_⟩
  intro res tb r0 hfilter
  exact upsertRowBy_update_filter resourceConflict (resourceMetadataUpdate res)
    (newResourceRow tenant res tb.nextId) (fun x h => h) tb.rows r0 hfilter

def resA : LarkMessageResource :=
  { messageId := "om_1", chatId := "oc_1",
    resourceType := LarkResourceType.file, fileKey := "fk_1",
    fileName := some "report.docx", mimeType := some "application/msword",
    sizeBytes := some 42 }

def emptyResourceTable : ResourceTable := ⟨[], 1⟩

theorem registerResources_idempotent_witness :
    (upsertResources "t1" [resA]
        (upsertResources "t1" [resA] emptyResourceTable)).rows.length
      = (upsertResources "t1" [resA] emptyResourceTable).rows.length
    ∧ List.Forall₂ resourceCoreSame
        (upsertResources "t1" [resA] emptyResourceTable).rows
        (upsertResources "t1" [resA]
          (upsertResources "t1" [resA] emptyResourceTable)).rows
    ∧ (upsertOneResource "t1" resA
        (upsertResources "t1" [resA] emptyResourceTable)).rows.filter
          (fun r => resourceKeyIs "t1" resA r)
        = [resourceMetadataUpdate resA (newResourceRow "t1" resA 1)] := by
  have h := registerResources_idempotent "t1" [resA] emptyResourceTable
  exact ⟨h.1, h.2.1, h.2.2 resA (upsertResources "t1" [resA] emptyResourceTable)
    (newResourceRow "t1" resA 1) (by decide)⟩

/-! ## Download worker (src: part_002, fetchPendingResources /
updateResourceStatus / downloadResource / processResourceQueue)

The Lark transfer client is an external collaborator: it is modelled as a
function from the resource row to either an error (a thrown request failure)
or a response carrying the parsed `content-length` header and a body-write
outcome.  The observable interaction is recorded as an event list so that
"no transfer request issued" and "body not written" are provable facts. -/

structure TransferResponse where
  contentLength : Option Nat
  writeBody : Except String Unit

structure DownloadEnv where
  fetchResource : ResourceRow → Except String TransferResponse

inductive DownloadEvent
  | transferRequested
  | bodyWritten
  deriving Repr, DecidableEq

def isForbiddenChar (c : Char) : Bool :=
  c = '\\' || c = '/' || c = ':' || c = '*' || c = '?' || c = '"'
    || c = '<' || c = '>' || c = '|'

/-- The regex `[\\/:*?"<>|]+` replaces each run of forbidden characters with
one underscore. -/
def collapseForbidden : List Char → List Char
  | [] => []
  | c :: rest =>
    if isForbiddenChar c then
      '_' :: collapseForbidden (rest.dropWhile isForbiddenChar)
    else
      c :: collapseForbidden rest
termination_by l => l.length
decreasing_by
  · simp only [List.length_cons]
    exact Nat.lt_succ_of_le (List.Sublist.length_le (List.dropWhile_sublist _))
  · simp

def sanitizeFileName (raw : String) : String :=
  let trimmed := (String.mk (collapseForbidden raw.data)).trim
  if trimmed = "" then "resource" else trimmed

/-- Model of `path.join(baseDir, messageId, safeName)` with the state-directory base
modelled as the constant prefix `resources`. -/
def resourceFilePath (r : ResourceRow) : String :=
  "resources/" ++ r.messageId ++ "/" ++ sanitizeFileName (r.fileName.getD r.fileKey)

/-- JS truthiness guard `value && value > maxBytes` on an optional number. -/
def jsSizeExceeds (v : Option Nat) (maxBytes : Nat) : Bool :=
  match v with
  | some n => n != 0 && decide (maxBytes < n)
  | none => false

/-- Model of `updateResourceStatus` (part_002): one UPDATE statement; every listed
column is overwritten (`storage_path`/`storage_url`/`error` fall back to
NULL when not passed) while `attempts = COALESCE(?, attempts)` keeps the
stored counter when no new value is given. -/
def updateResourceStatus (tenant : String) (id : Nat) (status : ResourceStatus)
    (storagePath storageUrl err : Option String) (attempts : Option Nat)
    (rows : List ResourceRow) : List ResourceRow :=
  rows.map fun r =>
    if r.tenantKey == tenant && r.id == id then
      { r with status := status, storagePath := storagePath,
               storageUrl := storageUrl, error := err,
               attempts := attempts.getD r.attempts }
    else r

/-- Model of `downloadResource` (part_002): documents are skipped; a declared size
over the limit short-circuits to `too_large` before any transfer request; a
reported content length over the limit short-circuits to `too_large` before
the body is written; otherwise the file is written and the row marked
`ready` with its storage location. -/
def downloadResource (env : DownloadEnv) (tenant : String) (maxBytes : Nat)
    (r : ResourceRow) (rows : List ResourceRow) :
    Except String (List ResourceRow × List DownloadEvent) :=
  if r.resourceType = LarkResourceType.doc then Except.ok (rows, [])
  else
    let filePath := resourceFilePath r
    if jsSizeExceeds r.sizeBytes maxBytes then
      Except.ok (updateResourceStatus tenant r.id ResourceStatus.tooLarge
        none none
        (some ("size " ++ toString (r.sizeBytes.getD 0) ++ " exceeds limit"))
        none rows, [])
    else
      match env.fetchResource r with
      | Except.error e => Except.error e
      | Except.ok resp =>
        if jsSizeExceeds resp.contentLength maxBytes then
          Except.ok (updateResourceStatus tenant r.id ResourceStatus.tooLarge
            none none
            (some ("size " ++ toString (resp.contentLength.getD 0)
              ++ " exceeds limit"))
            none rows, [DownloadEvent.transferRequested])
        else
          match resp.writeBody with
          | Except.error e => Except.error e
          | Except.ok _ =>
            Except.ok (updateResourceStatus tenant r.id ResourceStatus.ready
              (some filePath) (some filePath) none none rows,
              [DownloadEvent.transferRequested, DownloadEvent.bodyWritten])

/-- Row-eligibility filter of `fetchPendingResources`:
`status IN ("pending", "failed") AND attempts < 3`. -/
def pendingEligible (r : ResourceRow) : Bool :=
  (r.status == ResourceStatus.pending || r.status == ResourceStatus.failed)
    && decide (r.attempts < MAX_ATTEMPTS)

/-- Model of `fetchPendingResources` (part_002): tenant-scoped selection of eligible
rows, oldest first (list order = `created_at` order), limited to the batch
size. -/
def fetchPendingResources (tenant : String) (rows : List ResourceRow) :
    List ResourceRow :=
  (rows.filter (fun r => r.tenantKey == tenant && pendingEligible r)).take
    DOWNLOAD_BATCH_SIZE

/-- Loop body of `processResourceQueue` for one selected row: mark
`downloading` and bump `attempts` first, then attempt the download; a thrown
download error is caught and recorded as `failed` (the bumped attempts value
is kept by the COALESCE). -/
def processOne (env : DownloadEnv) (tenant : String) (maxBytes : Nat)
    (r : ResourceRow) (rows : List ResourceRow) : List ResourceRow :=
  let marked := updateResourceStatus tenant r.id ResourceStatus.downloading
    none none none (some (r.attempts + 1)) rows
  match downloadResource env tenant maxBytes r marked with
  | Except.ok (rows2, _) => rows2
  | Except.error e =>
    updateResourceStatus tenant r.id ResourceStatus.failed none none
      (some e) none marked

def processBatch (env : DownloadEnv) (tenant : String) (maxBytes : Nat)
    (batch : List ResourceRow) (rows : List ResourceRow) : List ResourceRow :=
  batch.foldl (fun acc r => processOne env tenant maxBytes r acc) rows

/-- Model of `processResourceQueue` (part_002): select a batch, process it, refetch,
and repeat until the selection comes back empty (drain to empty).  The
worker's unbounded while-loop is embedded with explicit fuel; `none` means
the fuel ran out before the queue drained. -/
def processResourceQueue (env : DownloadEnv) (tenant : String)
    (maxBytes : Nat) : Nat → List ResourceRow → Option (List ResourceRow)
  | 0, rows =>
    if (fetchPendingResources tenant rows).isEmpty then some rows else none
  | Nat.succ fuel, rows =>
    let pending := fetchPendingResources tenant rows
    if pending.isEmpty then some rows
    else processResourceQueue env tenant maxBytes fuel
      (processBatch env tenant maxBytes pending rows)

/-- C4: size governance.  For a non-document resource: (1) if the stored
declared size exceeds the limit, the worker marks the row `too_large`
without issuing the transfer request (empty event trace); (2) if the
declared size is unknown but the transfer's reported content length exceeds
the limit, the worker marks `too_large` after the request but without
writing the body (no `bodyWritten` event); (3) a row updated to `too_large`
has status `too_large` and no storage path or url recorded — it does not
reach `ready`. -/
theorem downloadResource_size_governance (env : DownloadEnv) (tenant : String)
    (maxBytes : Nat) (r : ResourceRow) (rows : List ResourceRow)
    (hdoc : r.resourceType ≠ LarkResourceType.doc) :
    (∀ n, r.sizeBytes = some n → maxBytes < n →
      downloadResource env tenant maxBytes r rows
        = Except.ok (updateResourceStatus tenant r.id ResourceStatus.tooLarge
            none none (some ("size " ++ toString n ++ " exceeds limit"))
            none rows, []))
    ∧ (∀ (resp : TransferResponse) (m : Nat), r.sizeBytes = none →
        env.fetchResource r = Except.ok resp → resp.contentLength = some m →
        maxBytes < m →
      downloadResource env tenant maxBytes r rows
        = Except.ok (updateResourceStatus tenant r.id ResourceStatus.tooLarge
            none none (some ("size " ++ toString m ++ " exceeds limit"))
            none rows, [DownloadEvent.transferRequested]))
    ∧ (∀ (oerr : Option String) (rows2 : List ResourceRow) (x : ResourceRow),
        x ∈ updateResourceStatus tenant r.id ResourceStatus.tooLarge
          none none oerr none rows2 →
        x.tenantKey = tenant → x.id = r.id →
        x.status = ResourceStatus.tooLarge ∧ x.storagePath = none
          ∧ x.storageUrl = none) := by
  refine ⟨?_, ?_, ?_⟩
  · intro n hn hlt
    have hx : jsSizeExceeds (some n) maxBytes = true := by
      simp [jsSizeExceeds, hlt]
      omega
    simp [downloadResource, hdoc, hn, hx]
  · intro resp m hnone hfetch hcl hlt
    have hx0 : jsSizeExceeds (none : Option Nat) maxBytes = false := by
      simp [jsSizeExceeds]
    have hx1 : jsSizeExceeds (some m) maxBytes = true := by
      simp [jsSizeExceeds, hlt]
      omega
    simp [downloadResource, hdoc, hnone, hx0, hfetch, hcl, hx1]
  · intro oerr rows2 x hx hxt hxi
    rcases List.mem_map.mp hx with ⟨y, hy, hxy⟩
    by_cases hg : (y.tenantKey == tenant && y.id == r.id) = true
    · rw [if_pos hg] at hxy
      subst hxy
      exact ⟨rfl, rfl, rfl⟩
    · rw [if_neg hg] at hxy
      subst hxy
      simp [hxt, hxi] at hg

def declaredBigRow : ResourceRow :=
  { id := 1, tenantKey := "t1", messageId := "om_1", chatId := "oc_1",
    resourceType := LarkResourceType.file, fileKey := "fk_big",
    fileName := some "big.bin", mimeType := none, sizeBytes := some 150,
    status := ResourceStatus.pending, storagePath := none, storageUrl := none,
    error := none, attempts := 0 }

def unknownSizeRow : ResourceRow :=
  { id := 2, tenantKey := "t1", messageId := "om_1", chatId := "oc_1",
    resourceType := LarkResourceType.file, fileKey := "fk_u",
    fileName := some "u.bin", mimeType := none, sizeBytes := none,
    status := ResourceStatus.pending, storagePath := none, storageUrl := none,
    error := none, attempts := 0 }

/-- A transfer layer whose responses always report 150 bytes. -/
def oversizeEnv : DownloadEnv :=
  ⟨fun _ => Except.ok { contentLength := some 150, writeBody := Except.ok () }⟩

def tooLargeRowW : ResourceRow :=
  { declaredBigRow with
    status := ResourceStatus.tooLarge
    storagePath := none
    storageUrl := none
    error := some "x" }

theorem downloadResource_size_governance_witness :
    downloadResource oversizeEnv "t1" 100 declaredBigRow [declaredBigRow]
      = Except.ok (updateResourceStatus "t1" declaredBigRow.id
          ResourceStatus.tooLarge none none
          (some ("size " ++ toString (150 : Nat) ++ " exceeds limit"))
          none [declaredBigRow], [])
    ∧ downloadResource oversizeEnv "t1" 100 unknownSizeRow [unknownSizeRow]
      = Except.ok (updateResourceStatus "t1" unknownSizeRow.id
          ResourceStatus.tooLarge none none
          (some ("size " ++ toString (150 : Nat) ++ " exceeds limit"))
          none [unknownSizeRow], [DownloadEvent.transferRequested])
    ∧ (tooLargeRowW.status = ResourceStatus.tooLarge
        ∧ tooLargeRowW.storagePath = none
        ∧ tooLargeRowW.storageUrl = none) := by
  have h1 := downloadResource_size_governance oversizeEnv "t1" 100
    declaredBigRow [declaredBigRow] (by decide)
  have h2 := downloadResource_size_governance oversizeEnv "t1" 100
    unknownSizeRow [unknownSizeRow] (by decide)
  refine ⟨h1.1 150 rfl (by decide), ?_, ?_⟩
  · exact h2.2.1 { contentLength := some 150, writeBody := Except.ok () } 150
      rfl rfl rfl (by decide)
  · exact h1.2.2 (some "x") [declaredBigRow] tooLargeRowW (by decide) rfl rfl

/-! ### The retry ceiling (C2)

An always-failing transfer layer drives every eligible row through
`downloading → failed`, bumping `attempts` by one per pass, until
`attempts = 3` excludes the row from `fetchPendingResources`. -/

/-- End state of a stored row after `processOne` on a selected row `r` whose
transfer threw `e`: marked `downloading` with `attempts := r.attempts + 1`,
then overwritten to `failed` (the COALESCE keeps the bumped counter). -/
def failedRowFrom (r : ResourceRow) (e : String) (x : ResourceRow) :
    ResourceRow :=
  { x with status := ResourceStatus.failed, storagePath := none,
           storageUrl := none, error := some e, attempts := r.attempts + 1 }

theorem processOne_map (env : DownloadEnv) (tenant : String) (maxBytes : Nat)
    (r : ResourceRow) (rows : List ResourceRow)
    (hdoc : r.resourceType ≠ LarkResourceType.doc)
    (hsize : jsSizeExceeds r.sizeBytes maxBytes = false)
    (e : String) (hfe : env.fetchResource r = Except.error e) :
    processOne env tenant maxBytes r rows
      = rows.map (fun x =>
          if x.tenantKey == tenant && x.id == r.id then failedRowFrom r e x
          else x) := by
  have hdl : downloadResource env tenant maxBytes r
      (updateResourceStatus tenant r.id ResourceStatus.downloading none none
        none (some (r.attempts + 1)) rows) = Except.error e := by
    simp [downloadResource, hdoc, hsize, hfe]
  simp only [processOne, hdl]
  simp only [updateResourceStatus, List.map_map]
  apply List.map_congr_left
  intro x _
  by_cases hg : (x.tenantKey == tenant && x.id == r.id) = true
  · simp [Function.comp, hg, failedRowFrom]
  · simp [Function.comp, hg]

/-- The step `processOne` never changes a row's id, tenant, resource type
or declared size. -/
theorem processOne_quad (env : DownloadEnv) (tenant : String) (maxBytes : Nat)
    (r : ResourceRow) (rows : List ResourceRow)
    (hdoc : r.resourceType ≠ LarkResourceType.doc)
    (hsize : jsSizeExceeds r.sizeBytes maxBytes = false)
    (e : String) (hfe : env.fetchResource r = Except.error e) :
    (processOne env tenant maxBytes r rows).map
        (fun x => (x.id, x.tenantKey, x.resourceType, x.sizeBytes))
      = rows.map (fun x => (x.id, x.tenantKey, x.resourceType, x.sizeBytes)) := by
  rw [processOne_map env tenant maxBytes r rows hdoc hsize e hfe, List.map_map]
  apply List.map_congr_left
  intro x _
  by_cases hg : (x.tenantKey == tenant && x.id == r.id) = true
  · simp [Function.comp, hg, failedRowFrom]
  · simp [Function.comp, hg]

/-- Per-row contribution to the loop's termination measure. -/
def retryContrib (tenant : String) (r : ResourceRow) : Nat :=
  if r.tenantKey == tenant && pendingEligible r then MAX_ATTEMPTS - r.attempts
  else 0

def retryBudget (tenant : String) (rows : List ResourceRow) : Nat :=
  (rows.map (retryContrib tenant)).sum

theorem pendingEligible_attempts {r : ResourceRow}
    (h : pendingEligible r = true) : r.attempts < MAX_ATTEMPTS := by
  simp [pendingEligible] at h
  exact h.2

theorem processOne_budget_drop (env : DownloadEnv) (tenant : String)
    (maxBytes : Nat) (r : ResourceRow) (rows : List ResourceRow)
    (hnodup : (rows.map (fun x => x.id)).Nodup)
    (hmem : r ∈ rows)
    (hsel : (r.tenantKey == tenant && pendingEligible r) = true)
    (hdoc : r.resourceType ≠ LarkResourceType.doc)
    (hsize : jsSizeExceeds r.sizeBytes maxBytes = false)
    (e : String) (hfe : env.fetchResource r = Except.error e) :
    retryBudget tenant (processOne env tenant maxBytes r rows) + 1
      = retryBudget tenant rows := by
  rw [processOne_map env tenant maxBytes r rows hdoc hsize e hfe]
  obtain ⟨s, t, rfl⟩ := List.append_of_mem hmem
  have hids : r.id ∉ s.map (fun x => x.id) ∧ r.id ∉ t.map (fun x => x.id) := by
    rw [List.map_append, List.map_cons] at hnodup
    have hsplit := List.nodup_append.mp hnodup
    exact ⟨fun hs => (hsplit.2.2 hs) (List.mem_cons_self _ _),
      (List.nodup_cons.mp hsplit.2.1).1⟩
  have hguard : ∀ x, x ∈ s ∨ x ∈ t →
      (x.tenantKey == tenant && x.id == r.id) = false := by
    intro x hx
    have hne : x.id ≠ r.id := by
      rcases hx with hx | hx
      · intro hxe
        exact hids.1 (hxe ▸ List.mem_map_of_mem (fun y => y.id) hx)
      · intro hxe
        exact hids.2 (hxe ▸ List.mem_map_of_mem (fun y => y.id) hx)
    simp [hne]
  have hselfguard : (r.tenantKey == tenant && r.id == r.id) = true := by
    simp at hsel ⊢
    exact hsel.1
  have hs : s.map (fun x =>
      if x.tenantKey == tenant && x.id == r.id then failedRowFrom r e x
      else x) = s :=
    List.map_congr_left (fun x hx => by simp [hguard x (Or.inl hx)]) |>.trans
      (List.map_id s)
  have ht : t.map (fun x =>
      if x.tenantKey == tenant && x.id == r.id then failedRowFrom r e x
      else x) = t :=
    List.map_congr_left (fun x hx => by simp [hguard x (Or.inr hx)]) |>.trans
      (List.map_id t)
  have hatt : r.attempts < MAX_ATTEMPTS := by
    simp at hsel
    exact pendingEligible_attempts hsel.2
  have hcontribOld : retryContrib tenant r = MAX_ATTEMPTS - r.attempts := by
    simp [retryContrib, hsel]
  have hcontribNew : retryContrib tenant (failedRowFrom r e r)
      = MAX_ATTEMPTS - (r.attempts + 1) := by
    have htk : (r.tenantKey == tenant) = true := by
      simp at hsel ⊢
      exact hsel.1
    by_cases hlt : r.attempts + 1 < MAX_ATTEMPTS
    · simp [retryContrib, failedRowFrom, pendingEligible, htk, hlt]
    · have h3 : r.attempts + 1 = MAX_ATTEMPTS := by omega
      simp [retryContrib, failedRowFrom, pendingEligible, htk, hlt]
      omega
  rw [List.map_append, List.map_cons, hs, ht, if_pos hselfguard]
  simp only [retryBudget, List.map_append, List.map_cons, List.sum_append,
    List.sum_cons, hcontribOld, hcontribNew]
  have hMA : MAX_ATTEMPTS = 3 := rfl
  omega

/-- Well-formed download table: distinct ids, and no tenant row can take the
doc-skip or declared-size short circuit (the C2 scenario: rows whose only
exit from the state machine is a transfer attempt). -/
def tableOk (tenant : String) (maxBytes : Nat)
    (rows : List ResourceRow) : Prop :=
  (rows.map (fun x => x.id)).Nodup
  ∧ ∀ x ∈ rows, x.tenantKey = tenant →
      x.resourceType ≠ LarkResourceType.doc
        ∧ jsSizeExceeds x.sizeBytes maxBytes = false

/-- The tracked row invariant: the row with this id stays in the pending or
failed state with at most `MAX_ATTEMPTS` attempts, and once the counter
reaches the ceiling its status is `failed`. -/
def tracked (tenant : String) (id0 : Nat) (rows : List ResourceRow) : Prop :=
  ∃ x ∈ rows, x.id = id0 ∧ x.tenantKey = tenant
    ∧ (x.status = ResourceStatus.pending ∨ x.status = ResourceStatus.failed)
    ∧ x.attempts ≤ MAX_ATTEMPTS
    ∧ (x.attempts = MAX_ATTEMPTS → x.status = ResourceStatus.failed)

theorem processOne_tableOk (env : DownloadEnv) (tenant : String)
    (maxBytes : Nat) (r : ResourceRow) (rows : List ResourceRow)
    (hok : tableOk tenant maxBytes rows)
    (hdoc : r.resourceType ≠ LarkResourceType.doc)
    (hsize : jsSizeExceeds r.sizeBytes maxBytes = false)
    (e : String) (hfe : env.fetchResource r = Except.error e) :
    tableOk tenant maxBytes (processOne env tenant maxBytes r rows) := by
  have hquad := processOne_quad env tenant maxBytes r rows hdoc hsize e hfe
  constructor
  · have hids : (processOne env tenant maxBytes r rows).map (fun x => x.id)
        = rows.map (fun x => x.id) := by
      have := congrArg (List.map (fun p : Nat × String × LarkResourceType × Option Nat => p.1)) hquad
      simpa [List.map_map, Function.comp] using this
    rw [hids]
    exact hok.1
  · intro x hx hxt
    rw [processOne_map env tenant maxBytes r rows hdoc hsize e hfe] at hx
    rcases List.mem_map.mp hx with ⟨y, hy, hxy⟩
    by_cases hg : (y.tenantKey == tenant && y.id == r.id) = true
    · rw [if_pos hg] at hxy
      subst hxy
      exact hok.2 y hy (by simpa [failedRowFrom] using hxt)
    · rw [if_neg hg] at hxy
      subst hxy
      exact hok.2 y hy hxt

theorem processOne_tracked (env : DownloadEnv) (tenant : String)
    (maxBytes : Nat) (r : ResourceRow) (rows : List ResourceRow)
    (hnodup : (rows.map (fun x => x.id)).Nodup)
    (hmem : r ∈ rows)
    (hsel : (r.tenantKey == tenant && pendingEligible r) = true)
    (hdoc : r.resourceType ≠ LarkResourceType.doc)
    (hsize : jsSizeExceeds r.sizeBytes maxBytes = false)
    (e : String) (hfe : env.fetchResource r = Except.error e)
    (id0 : Nat) (htr : tracked tenant id0 rows) :
    tracked tenant id0 (processOne env tenant maxBytes r rows) := by
  obtain ⟨x, hx, hxid, hxt, hxs, hxa, hximp⟩ := htr
  rw [processOne_map env tenant maxBytes r rows hdoc hsize e hfe]
  have hmm := List.mem_map_of_mem (fun y =>
    if y.tenantKey == tenant && y.id == r.id then failedRowFrom r e y else y) hx
  by_cases hg : (x.tenantKey == tenant && x.id == r.id) = true
  · have hxr : x = r := by
      have hid : x.id = r.id := by
        simp at hg
        exact hg.2
      exact List.inj_on_of_nodup_map hnodup hx hmem hid
    simp only [hg, if_true] at hmm
    subst hxr
    have hatt : x.attempts < MAX_ATTEMPTS := by
      simp at hsel
      exact pendingEligible_attempts hsel.2
    refine ⟨failedRowFrom x e x, hmm, hxid, hxt, Or.inr rfl, ?_, fun _ => rfl⟩
    show x.attempts + 1 ≤ MAX_ATTEMPTS
    omega
  · simp only [hg, if_false] at hmm
    exact ⟨x, hmm, hxid, hxt, hxs, hxa, hximp⟩

theorem processBatch_spec (env : DownloadEnv) (tenant : String)
    (maxBytes : Nat)
    (henv : ∀ r : ResourceRow, r.tenantKey = tenant →
      ∃ e, env.fetchResource r = Except.error e) :
    ∀ (batch rows : List ResourceRow),
      tableOk tenant maxBytes rows →
      (batch.map (fun x => x.id)).Nodup →
      (∀ r ∈ batch, r ∈ rows
        ∧ (r.tenantKey == tenant && pendingEligible r) = true) →
      tableOk tenant maxBytes (processBatch env tenant maxBytes batch rows)
      ∧ retryBudget tenant (processBatch env tenant maxBytes batch rows)
          + batch.length = retryBudget tenant rows
      ∧ (∀ id0, tracked tenant id0 rows →
          tracked tenant id0 (processBatch env tenant maxBytes batch rows)) := by
  intro batch
  induction batch with
  | nil =>
    intro rows hok _ _
    exact ⟨hok, by simp [processBatch], fun id0 h => h⟩
  | cons r rest ih =>
    intro rows hok hbn hsub
    obtain ⟨hrmem, hrsel⟩ := hsub r (List.mem_cons_self r rest)
    have hrt : r.tenantKey = tenant := by
      simp at hrsel
      exact hrsel.1
    obtain ⟨hdoc, hsize⟩ := hok.2 r hrmem hrt
    obtain ⟨e, hfe⟩ := henv r hrt
    have hok1 : tableOk tenant maxBytes (processOne env tenant maxBytes r rows) :=
      processOne_tableOk env tenant maxBytes r rows hok hdoc hsize e hfe
    have hbud1 : retryBudget tenant (processOne env tenant maxBytes r rows) + 1
        = retryBudget tenant rows :=
      processOne_budget_drop env tenant maxBytes r rows hok.1 hrmem hrsel
        hdoc hsize e hfe
    have hrid : r.id ∉ rest.map (fun x => x.id) :=
      (List.nodup_cons.mp (by simpa using hbn)).1
    have hsub1 : ∀ q ∈ rest, q ∈ processOne env tenant maxBytes r rows
        ∧ (q.tenantKey == tenant && pendingEligible q) = true := by
      intro q hq
      obtain ⟨hqmem, hqsel⟩ := hsub q (List.mem_cons_of_mem r hq)
      refine ⟨?_, hqsel⟩
      have hqid : q.id ≠ r.id := by
        intro heq
        exact hrid (heq ▸ List.mem_map_of_mem (fun x => x.id) hq)
      rw [processOne_map env tenant maxBytes r rows hdoc hsize e hfe]
      have hmm := List.mem_map_of_mem (fun y =>
        if y.tenantKey == tenant && y.id == r.id then failedRowFrom r e y
        else y) hqmem
      simpa [hqid] using hmm
    have hbn1 : (rest.map (fun x => x.id)).Nodup :=
      (List.nodup_cons.mp (by simpa using hbn)).2
    obtain ⟨hok2, hbud2, htr2⟩ :=
      ih (processOne env tenant maxBytes r rows) hok1 hbn1 hsub1
    have hstep : processBatch env tenant maxBytes (r :: rest) rows
        = processBatch env tenant maxBytes rest
            (processOne env tenant maxBytes r rows) := rfl
    rw [hstep]
    refine ⟨hok2, ?_, ?_⟩
    · simp only [List.length_cons]
      omega
    · intro id0 htr
      exact htr2 id0 (processOne_tracked env tenant maxBytes r rows hok.1
        hrmem hrsel hdoc hsize e hfe id0 htr)

theorem processResourceQueue_drains (env : DownloadEnv) (tenant : String)
    (maxBytes : Nat)
    (henv : ∀ r : ResourceRow, r.tenantKey = tenant →
      ∃ e, env.fetchResource r = Except.error e) :
    ∀ (n : Nat) (rows : List ResourceRow),
      retryBudget tenant rows ≤ n → tableOk tenant maxBytes rows →
      ∃ final, processResourceQueue env tenant maxBytes n rows = some final
        ∧ fetchPendingResources tenant final = []
        ∧ ∀ id0, tracked tenant id0 rows → tracked tenant id0 final := by
  intro n
  induction n with
  | zero =>
    intro rows hb hok
    have hempty : fetchPendingResources tenant rows = [] := by
      by_contra hne
      obtain ⟨r, hr⟩ := List.exists_mem_of_ne_nil _ hne
      have hrf : r ∈ rows.filter
          (fun x => x.tenantKey == tenant && pendingEligible x) :=
        List.mem_of_mem_take hr
      have hrr : r ∈ rows := List.mem_of_mem_filter hrf
      have hrp := List.of_mem_filter hrf
      have hattempts : r.attempts < MAX_ATTEMPTS := by
        simp at hrp
        exact pendingEligible_attempts hrp.2
      have h1 : 1 ≤ retryContrib tenant r := by
        simp only [retryContrib, hrp, if_true]
        omega
      have hle : retryContrib tenant r ≤ retryBudget tenant rows :=
        List.single_le_sum (fun x _ => Nat.zero_le x) _
          (List.mem_map_of_mem _ hrr)
      omega
    refine ⟨rows, ?_, hempty, fun id0 h => h⟩
    simp [processResourceQueue, hempty]
  | succ n ih =>
    intro rows hb hok
    by_cases hempty : (fetchPendingResources tenant rows).isEmpty = true
    · refine ⟨rows, ?_, List.isEmpty_iff.mp hempty, fun id0 h => h⟩
      simp [processResourceQueue, hempty]
    · have hbsub : (fetchPendingResources tenant rows).Sublist rows :=
        (List.take_sublist _ _).trans (List.filter_sublist _)
      have hbnodup : ((fetchPendingResources tenant rows).map
          (fun x => x.id)).Nodup :=
        List.Nodup.sublist (List.Sublist.map _ hbsub) hok.1
      have hsubmem : ∀ r ∈ fetchPendingResources tenant rows, r ∈ rows
          ∧ (r.tenantKey == tenant && pendingEligible r) = true := by
        intro r hr
        have hrf : r ∈ rows.filter
            (fun x => x.tenantKey == tenant && pendingEligible x) :=
          List.mem_of_mem_take hr
        refine ⟨List.mem_of_mem_filter hrf, ?_⟩
        exact List.of_mem_filter
          (p := fun x => x.tenantKey == tenant && pendingEligible x) hrf
      have hblen : 1 ≤ (fetchPendingResources tenant rows).length := by
        have hne : fetchPendingResources tenant rows ≠ [] := by
          intro h
          exact hempty (by simp [h])
        exact List.length_pos.mpr hne
      obtain ⟨hok2, hbud2, htr2⟩ := processBatch_spec env tenant maxBytes henv
        (fetchPendingResources tenant rows) rows hok hbnodup hsubmem
      have hb2 : retryBudget tenant (processBatch env tenant maxBytes
          (fetchPendingResources tenant rows) rows) ≤ n := by
        omega
      obtain ⟨final, hrun, hfin, htrf⟩ := ih (processBatch env tenant maxBytes
        (fetchPendingResources tenant rows) rows) hb2 hok2
      refine ⟨final, ?_, hfin, fun id0 h => htrf id0 (htr2 id0 h)⟩
      simpa [processResourceQueue, hempty] using hrun

/-- C2: the retry ceiling.  Over a table whose tenant rows cannot take the
doc-skip or declared-size short circuit, with a transfer layer that always
throws: the drain loop terminates (with fuel the remaining retry budget),
afterwards the pending-resource selection is empty, every initially eligible
row (status in {pending, failed} with attempts < 3) ends with status
`failed` and attempts exactly 3 and hence is never again returned by the
selection; moreover each single step marks the row `downloading` with the
attempt counter incremented before the transfer is attempted, and the caught
transfer error leaves that bumped counter in the `failed` row. -/
theorem resource_retry_ceiling (env : DownloadEnv) (tenant : String)
    (maxBytes : Nat) (rows : List ResourceRow)
    (hok : tableOk tenant maxBytes rows)
    (henv : ∀ r : ResourceRow, r.tenantKey = tenant →
      ∃ e, env.fetchResource r = Except.error e) :
    (∃ fuel final,
      processResourceQueue env tenant maxBytes fuel rows = some final
      ∧ fetchPendingResources tenant final = []
      ∧ ∀ r0 ∈ rows, r0.tenantKey = tenant → pendingEligible r0 = true →
          ∃ r1 ∈ final, r1.id = r0.id ∧ r1.status = ResourceStatus.failed
            ∧ r1.attempts = MAX_ATTEMPTS)
    ∧ (∀ (q : ResourceRow) (rs : List ResourceRow), q.tenantKey = tenant →
        q.resourceType ≠ LarkResourceType.doc →
        jsSizeExceeds q.sizeBytes maxBytes = false →
        ∃ e, env.fetchResource q = Except.error e
          ∧ processOne env tenant maxBytes q rs
            = updateResourceStatus tenant q.id ResourceStatus.failed none none
                (some e) none
                (updateResourceStatus tenant q.id ResourceStatus.downloading
                  none none none (some (q.attempts + 1)) rs)) := by
  constructor
  · obtain ⟨final, hrun, hfin, htrf⟩ := processResourceQueue_drains env tenant
      maxBytes henv (retryBudget tenant rows) rows (le_refl _) hok
    refine ⟨retryBudget tenant rows, final, hrun, hfin, ?_⟩
    intro r0 hr0 hrt hre
    have hlt : r0.attempts < MAX_ATTEMPTS := pendingEligible_attempts hre
    have hst : r0.status = ResourceStatus.pending
        ∨ r0.status = ResourceStatus.failed := by
      simp [pendingEligible] at hre
      rcases hre.1 with h | h
      · exact Or.inl h
      · exact Or.inr h
    have htr0 : tracked tenant r0.id rows :=
      ⟨r0, hr0, rfl, hrt, hst, by omega, fun h3 => absurd h3 (by omega)⟩
    obtain ⟨x, hxf, hxid, hxt, hxs, hxa, hximp⟩ := htrf r0.id htr0
    have hfilnil : final.filter
        (fun r => r.tenantKey == tenant && pendingEligible r) = [] := by
      have := hfin
      unfold fetchPendingResources at this
      rcases List.take_eq_nil_iff.mp this with h | h
      · simp [DOWNLOAD_BATCH_SIZE] at h
      · exact h
    have hnp : ¬ ((x.tenantKey == tenant && pendingEligible x) = true) :=
      List.filter_eq_nil_iff.mp hfilnil x hxf
    have hnlt : ¬ (x.attempts < MAX_ATTEMPTS) := by
      intro hcon
      apply hnp
      rcases hxs with h | h <;> simp [pendingEligible, hxt, h, hcon]
    have h3 : x.attempts = MAX_ATTEMPTS := by omega
    exact ⟨x, hxf, hxid, hximp h3, h3⟩
  · intro q rs hqt hqd hqs
    obtain ⟨e, hfe⟩ := henv q hqt
    refine ⟨e, hfe, ?_⟩
    have hdl : downloadResource env tenant maxBytes q
        (updateResourceStatus tenant q.id ResourceStatus.downloading none none
          none (some (q.attempts + 1)) rs) = Except.error e := by
      simp [downloadResource, hqd, hqs, hfe]
    simp [processOne, hdl]

/-- A transfer layer that always throws. -/
def failEnv : DownloadEnv := ⟨fun _ => Except.error "network error"⟩

def retryRow : ResourceRow :=
  { id := 7, tenantKey := "t1", messageId := "om_2", chatId := "oc_1",
    resourceType := LarkResourceType.image, fileKey := "img_1",
    fileName := none, mimeType := none, sizeBytes := none,
    status := ResourceStatus.pending, storagePath := none, storageUrl := none,
    error := none, attempts := 0 }

theorem resource_retry_ceiling_witness :
    (∃ fuel final,
      processResourceQueue failEnv "t1" 104857600 fuel [retryRow] = some final
      ∧ fetchPendingResources "t1" final = []
      ∧ ∀ r0 ∈ [retryRow], r0.tenantKey = "t1" → pendingEligible r0 = true →
          ∃ r1 ∈ final, r1.id = r0.id ∧ r1.status = ResourceStatus.failed
            ∧ r1.attempts = MAX_ATTEMPTS)
    ∧ (∀ (q : ResourceRow) (rs : List ResourceRow), q.tenantKey = "t1" →
        q.resourceType ≠ LarkResourceType.doc →
        jsSizeExceeds q.sizeBytes 104857600 = false →
        ∃ e, failEnv.fetchResource q = Except.error e
          ∧ processOne failEnv "t1" 104857600 q rs
            = updateResourceStatus "t1" q.id ResourceStatus.failed none none
                (some e) none
                (updateResourceStatus "t1" q.id ResourceStatus.downloading
                  none none none (some (q.attempts + 1)) rs)) :=
  resource_retry_ceiling failEnv "t1" 104857600 [retryRow]
    ⟨by decide, by decide⟩ (fun q _ => ⟨"network error", rfl⟩)

/-! ## Serialized write queue (src: part_007, enqueueWrite)

`enqueueWrite` chains `existing.catch(() => undefined).then(task).catch(err
=> sink)` onto the per-key promise stored in `writeQueues`.  The embedding
keeps, per ordering key, the list of enqueued tasks in submission order; a
task is a settling outcome (success or error).  `runChain` gives the
semantics of the resulting promise chain: tasks start strictly in list
order, each after its predecessor settled — the leading `.catch` makes the
chain proceed whether the predecessor fulfilled or rejected — and each
rejection is delivered to the error sink with the log prefix and swallowed.
`enqueueWrite` returns only the new queue state (the source returns `void`):
callers observe no completion or outcome. -/

structure WriteTask where
  id : Nat
  run : Except String Unit
  deriving Repr

def WriteQueues : Type := String → List WriteTask

def enqueueWrite (key : String) (task : WriteTask) (queues : WriteQueues) :
    WriteQueues :=
  fun k => if k = key then queues k ++ [task] else queues k

def writeErrorMessage (e : String) : String :=
  "[lark] mysql write failed: " ++ e

/-- Execution of one key's promise chain: the ids in start order, and the
messages delivered to the error sink. -/
def runChain : List WriteTask → List Nat × List String
  | [] => ([], [])
  | t :: ts =>
    let tail := runChain ts
    (t.id :: tail.1,
      (match t.run with
       | Except.error e => [writeErrorMessage e]
       | Except.ok _ => []) ++ tail.2)

/-- C5: the serialized write queue.  Enqueueing appends the task after every
previously enqueued task of the same ordering key and leaves every other
key's chain untouched (distinct keys are not ordered relative to each
other); a chain always starts its tasks exactly in submission order — a
rejecting task neither prevents nor reorders its successors; rejections are
delivered to the error sink (with the mysql-write log prefix) and swallowed;
and the enqueued task starts only after all previously enqueued tasks of its
key. -/
theorem enqueueWrite_serialized (key : String) (task : WriteTask)
    (m : WriteQueues) :
    (enqueueWrite key task m) key = m key ++ [task]
    ∧ (∀ k, k ≠ key → (enqueueWrite key task m) k = m k)
    ∧ (∀ ch : List WriteTask, (runChain ch).1 = ch.map (fun t => t.id))
    ∧ (∀ ch : List WriteTask, (runChain ch).2
        = ch.filterMap (fun t => match t.run with
            | Except.error e => some (writeErrorMessage e)
            | Except.ok _ => none))
    ∧ (runChain ((enqueueWrite key task m) key)).1
        = (m key).map (fun t => t.id) ++ [task.id] := by
  have horder : ∀ ch : List WriteTask, (runChain ch).1
      = ch.map (fun t => t.id) := by
    intro ch
    induction ch with
    | nil => rfl
    | cons t ts ih => simp [runChain, ih]
  have hsink : ∀ ch : List WriteTask, (runChain ch).2
      = ch.filterMap (fun t => match t.run with
          | Except.error e => some (writeErrorMessage e)
          | Except.ok _ => none) := by
    intro ch
    induction ch with
    | nil => rfl
    | cons t ts ih =>
      cases htr : t.run with
      | error e => simp [runChain, htr, ih]
      | ok u => simp [runChain, htr, ih]
  refine ⟨by simp [enqueueWrite], fun k hk => by simp [enqueueWrite, hk],
    horder, hsink, ?_⟩
  rw [horder]
  simp [enqueueWrite]

def wTask : WriteTask := ⟨3, Except.error "boom"⟩

def wQueues : WriteQueues :=
  fun _ => [⟨1, Except.ok ()⟩, ⟨2, Except.error "x"⟩]

theorem enqueueWrite_serialized_witness :
    (enqueueWrite "k1" wTask wQueues) "k1" = wQueues "k1" ++ [wTask]
    ∧ (enqueueWrite "k1" wTask wQueues) "k2" = wQueues "k2"
    ∧ (runChain (wQueues "k1")).1 = (wQueues "k1").map (fun t => t.id)
    ∧ (runChain (wQueues "k1")).2
        = (wQueues "k1").filterMap (fun t => match t.run with
            | Except.error e => some (writeErrorMessage e)
            | Except.ok _ => none)
    ∧ (runChain ((enqueueWrite "k1" wTask wQueues) "k1")).1
        = (wQueues "k1").map (fun t => t.id) ++ [wTask.id] := by
  have h := enqueueWrite_serialized "k1" wTask wQueues
  exact ⟨h.1, h.2.1 "k2" (by decide), h.2.2.1 (wQueues "k1"),
    h.2.2.2.1 (wQueues "k1"), h.2.2.2.2⟩

/-! ## Directory traversal (src: part_000, fetchAllDepartments)

The paginated child-listing API (`collectAllPages` over
`listDepartmentChildren`) is modelled as a total function from a parent id
to its (already concatenated and normalized) child list; the direct root
fetch (`getDepartment`) as an `Except` carrying either a thrown error, no
department, or the root record.  The breadth-first loop is embedded with
explicit fuel (`none` = fuel exhausted before the queue emptied). -/

structure LarkDepartment where
  department_id : String
  name : Option String := none
  parent_department_id : Option String := none
  leader_user_id : Option String := none
  status : Option String := none
  member_count : Option Nat := none
  deriving Repr, DecidableEq

/-- The while-loop of `fetchAllDepartments`: dequeue a parent, skip it when
empty or already visited, otherwise list its children, append those with a
non-empty id to the results, and enqueue the ones not yet visited. -/
def fetchDepartmentsBfs (children : String → List LarkDepartment) :
    Nat → List String → List String → List LarkDepartment →
    Option (List LarkDepartment)
  | 0, queue, _, acc => if queue.isEmpty then some acc else none
  | Nat.succ _, [], _, acc => some acc
  | Nat.succ fuel, parentId :: rest, visited, acc =>
    if parentId = "" || visited.contains parentId then
      fetchDepartmentsBfs children fuel rest visited acc
    else
      let visited2 := parentId :: visited
      let cs := (children parentId).filter (fun d => d.department_id ≠ "")
      let newIds := cs.filterMap (fun d =>
        if visited2.contains d.department_id then none
        else some d.department_id)
      fetchDepartmentsBfs children fuel (rest ++ newIds) visited2 (acc ++ cs)

/-- Post-traversal step of `fetchAllDepartments`: when the root id never
appeared, try the direct fetch; a thrown fetch error is caught, logged, and
replaced by the synthesized placeholder record — it does not propagate. -/
def rootFallback (fetchRoot : Except String (Option LarkDepartment))
    (rootId : String) (results : List LarkDepartment) : List LarkDepartment :=
  if results.any (fun d => d.department_id == rootId) then results
  else
    match fetchRoot with
    | Except.ok (some root) => root :: results
    | Except.ok none => results
    | Except.error _ =>
      { department_id := rootId, name := some "Root Department" } :: results

def fetchAllDepartments (children : String → List LarkDepartment)
    (fetchRoot : Except String (Option LarkDepartment)) (rootId : String)
    (fuel : Nat) : Option (List LarkDepartment) :=
  (fetchDepartmentsBfs children fuel [rootId] [] []).map
    (rootFallback fetchRoot rootId)

/-- C9: BFS root fallback.  If the traversal terminates without ever
yielding a department with the configured root id and the direct root fetch
throws, `fetchAllDepartments` still returns a result (the caught error does
not propagate), with the synthesized placeholder prepended; the result list
contains exactly one entry with the root id — the placeholder named "Root
Department". -/
theorem fetchAllDepartments_root_fallback
    (children : String → List LarkDepartment)
    (rootId : String) (fuel : Nat) (base : List LarkDepartment) (msg : String)
    (hbfs : fetchDepartmentsBfs children fuel [rootId] [] [] = some base)
    (hnoroot : ∀ d ∈ base, d.department_id ≠ rootId) :
    fetchAllDepartments children (Except.error msg) rootId fuel
      = some ({ department_id := rootId, name := some "Root Department" }
          :: base)
    ∧ ({ department_id := rootId, name := some "Root Department" : LarkDepartment }
          :: base).filter (fun d => d.department_id == rootId)
        = [{ department_id := rootId, name := some "Root Department" }] := by
  have hany : base.any (fun d => d.department_id == rootId) = false := by
    rw [List.any_eq_false]
    intro d hd
    simp [hnoroot d hd]
  constructor
  · simp [fetchAllDepartments, hbfs, rootFallback, hany]
  · rw [List.filter_cons_of_pos (by simp)]
    rw [List.filter_eq_nil_iff.mpr (fun d hd => by simp [hnoroot d hd])]

theorem fetchAllDepartments_root_fallback_witness :
    fetchAllDepartments (fun _ => []) (Except.error "boom") "0" 1
      = some [{ department_id := "0", name := some "Root Department" }]
    ∧ ({ department_id := "0", name := some "Root Department" : LarkDepartment }
          :: ([] : List LarkDepartment)).filter (fun d => d.department_id == "0")
        = [{ department_id := "0", name := some "Root Department" }] :=
  fetchAllDepartments_root_fallback (fun _ => []) "0" 1 [] "boom" rfl
    (by simp)

/-! ## Directory sync write phase (src: part_000, runLarkDirectorySync)

The fetch phase (`fetchAllDepartments` / `fetchUsersForDepartments`)
produces the snapshot data; the write phase runs inside one SQL transaction:
chunked department upserts, chunked user upserts, a DELETE of all relation
rows of the tenant, then chunked plain INSERTs of the fresh relation list.
A transaction is modelled as the statement list executed against a
transaction-local state; `commit` publishes the final state, any statement
failure rolls back to the state before `beginTransaction` and rethrows.
The failure point is external nondeterminism (a `failAt` oracle: the index
of the statement whose execute throws). -/

structure LarkUser where
  user_id : Option String := none
  open_id : Option String := none
  union_id : Option String := none
  name : Option String := none
  email : Option String := none
  mobile : Option String := none
  job_title : Option String := none
  status : Option String := none
  department_ids : List String := []
  deriving Repr, DecidableEq

structure OrgDepartmentRow where
  tenantKey : String
  departmentId : String
  name : String
  parentDepartmentId : Option String
  leaderUserId : Option String
  status : Option String
  memberCount : Option Nat
  deriving Repr, DecidableEq

structure OrgUserRow where
  tenantKey : String
  userKey : String
  openId : Option String
  userId : Option String
  unionId : Option String
  name : Option String
  email : Option String
  mobile : Option String
  status : Option String
  jobTitle : Option String
  deriving Repr, DecidableEq

structure OrgRelationRow where
  tenantKey : String
  userKey : String
  departmentId : String
  isPrimary : Bool
  deriving Repr, DecidableEq

structure OrgState where
  departments : List OrgDepartmentRow
  users : List OrgUserRow
  relations : List OrgRelationRow
  deriving Repr, DecidableEq

structure DirectoryRelation where
  userKey : String
  departmentId : String
  isPrimary : Bool
  deriving Repr, DecidableEq

/-- Snapshot computed by the fetch phase: the discovered departments, the
user map entries in insertion order, and the flat relation list. -/
structure DirectoryData where
  departments : List LarkDepartment
  users : List (String × LarkUser)
  relations : List DirectoryRelation
  deriving Repr, DecidableEq

def WRITE_BATCH_SIZE : Nat := 200

/-- Model of `chunkRows` (part_000).  The `size = 0` guard only serves totality; the
source always chunks by 200. -/
def chunkRows (rows : List α) (size : Nat) : List (List α) :=
  if rows.length ≤ size ∨ size = 0 then [rows]
  else rows.take size :: chunkRows (rows.drop size) size
termination_by rows.length
decreasing_by
  simp only [List.length_drop]
  omega

/-- Department row written by the sync
(`dept.name?.trim() || dept.department_id` as the name fallback;
`synced_at` is a timestamp and not modelled). -/
def orgDepartmentRowOf (tenant : String) (d : LarkDepartment) :
    OrgDepartmentRow :=
  { tenantKey := tenant
    departmentId := d.department_id
    name := match d.name with
      | some s => if s.trim = "" then d.department_id else s.trim
      | none => d.department_id
    parentDepartmentId := d.parent_department_id
    leaderUserId := d.leader_user_id
    status := d.status
    memberCount := d.member_count }

def orgUserRowOf (tenant : String) (key : String) (u : LarkUser) : OrgUserRow :=
  { tenantKey := tenant
    userKey := key
    openId := u.open_id
    userId := u.user_id
    unionId := u.union_id
    name := u.name
    email := u.email
    mobile := u.mobile
    status := u.status
    jobTitle := u.job_title }

def orgRelationRowOf (tenant : String) (rel : DirectoryRelation) :
    OrgRelationRow :=
  { tenantKey := tenant
    userKey := rel.userKey
    departmentId := rel.departmentId
    isPrimary := rel.isPrimary }

/-- Duplicate-key test of `uniq_department (tenant_key, department_id)`. -/
def deptConflict (a b : OrgDepartmentRow) : Bool :=
  a.tenantKey == b.tenantKey && a.departmentId == b.departmentId

/-- Duplicate-key test of `uniq_user (tenant_key, user_key)`. -/
def orgUserConflict (a b : OrgUserRow) : Bool :=
  a.tenantKey == b.tenantKey && a.userKey == b.userKey

def deptRowsOf (tenant : String) (data : DirectoryData) :
    List OrgDepartmentRow :=
  (data.departments.map (orgDepartmentRowOf tenant)).filter
    (fun r => r.departmentId ≠ "")

def userRowsOf (tenant : String) (data : DirectoryData) : List OrgUserRow :=
  data.users.map (fun p => orgUserRowOf tenant p.1 p.2)

def relRowsOf (tenant : String) (data : DirectoryData) : List OrgRelationRow :=
  data.relations.map (orgRelationRowOf tenant)

/-- One chunked department upsert statement; the `ON DUPLICATE KEY UPDATE`
clause rewrites every non-key column, so a conflicting row is replaced. -/
def deptChunkStatement (batch : List OrgDepartmentRow) (st : OrgState) :
    OrgState :=
  { st with departments := (batch.foldl
      (fun acc row => upsertRowBy deptConflict (fun _ => row) row acc)
      st.departments) }

def userChunkStatement (batch : List OrgUserRow) (st : OrgState) : OrgState :=
  { st with users := (batch.foldl
      (fun acc row => upsertRowBy orgUserConflict (fun _ => row) row acc)
      st.users) }

/-- Model of `DELETE FROM org_user_department_rel WHERE tenant_key = ?`. -/
def deleteRelationsStatement (tenant : String) (st : OrgState) : OrgState :=
  { st with relations := (st.relations.filter
      (fun r => !(r.tenantKey == tenant))) }

/-- One chunked plain relation INSERT. -/
def relChunkStatement (batch : List OrgRelationRow) (st : OrgState) :
    OrgState :=
  { st with relations := st.relations ++ batch }

/-- The transaction's statement list, in execution order. -/
def directoryStatements (tenant : String) (data : DirectoryData) :
    List (OrgState → OrgState) :=
  (if data.departments.length > 0 then
    (chunkRows (deptRowsOf tenant data) WRITE_BATCH_SIZE).map
      deptChunkStatement
  else [])
  ++ (if data.users.length > 0 then
    (chunkRows (userRowsOf tenant data) WRITE_BATCH_SIZE).map
      userChunkStatement
  else [])
  ++ [deleteRelationsStatement tenant]
  ++ (if data.relations.length > 0 then
    (chunkRows (relRowsOf tenant data) WRITE_BATCH_SIZE).map
      relChunkStatement
  else [])

def runStatements (stmts : List (OrgState → OrgState)) (st : OrgState) :
    OrgState :=
  stmts.foldl (fun s f => f s) st

/-- Transaction-local execution: statement `i` throws when the failure
oracle names it. -/
def runTransactionAux : List (OrgState → OrgState) → Nat → Option Nat →
    OrgState → Except String OrgState
  | [], _, _, st => Except.ok st
  | f :: fs, i, failAt, st =>
    if failAt = some i then Except.error "statement failed"
    else runTransactionAux fs (i + 1) failAt (f st)

/-- Model of `runLarkDirectorySync` write phase (part_000): begin transaction, run the
statements, commit on success; on any statement failure roll back (the
published state stays as before the transaction) and rethrow.  Returns the
outcome seen by the caller and the published state. -/
def runLarkDirectorySync (tenant : String) (data : DirectoryData)
    (failAt : Option Nat) (st : OrgState) :
    Except String OrgState × OrgState :=
  match runTransactionAux (directoryStatements tenant data) 0 failAt st with
  | Except.ok st2 => (Except.ok st2, st2)
  | Except.error e => (Except.error e, st)

/-- The pure effect of the write phase when every statement succeeds. -/
def applyDirectoryWrite (tenant : String) (data : DirectoryData)
    (st : OrgState) : OrgState :=
  { departments := ((deptRowsOf tenant data).foldl
      (fun acc row => upsertRowBy deptConflict (fun _ => row) row acc)
      st.departments)
    users := ((userRowsOf tenant data).foldl
      (fun acc row => upsertRowBy orgUserConflict (fun _ => row) row acc)
      st.users)
    relations := ((st.relations.filter (fun r => !(r.tenantKey == tenant)))
      ++ relRowsOf tenant data) }

theorem chunkRows_join (n : Nat) : ∀ (l : List α), (chunkRows l n).flatten = l := by
  have hstep : ∀ (k : Nat) (l : List α), l.length ≤ k →
      (chunkRows l n).flatten = l := by
    intro k
    induction k with
    | zero =>
      intro l hl
      have : l = [] := List.length_eq_zero.mp (Nat.le_zero.mp hl)
      subst this
      rw [chunkRows]
      simp
    | succ k ih =>
      intro l hl
      rw [chunkRows]
      by_cases hc : l.length ≤ n ∨ n = 0
      · rw [if_pos hc]
        simp
      · rw [if_neg hc]
        push_neg at hc
        have hdrop : (l.drop n).length ≤ k := by
          simp only [List.length_drop]
          omega
        simp only [List.flatten_cons, ih (l.drop n) hdrop]
        exact List.take_append_drop n l
  exact fun l => hstep l.length l (le_refl _)

theorem runTransactionAux_none :
    ∀ (stmts : List (OrgState → OrgState)) (i : Nat) (st : OrgState),
      runTransactionAux stmts i none st = Except.ok (runStatements stmts st) := by
  intro stmts
  induction stmts with
  | nil => intro i st; rfl
  | cons f fs ih =>
    intro i st
    simp only [runTransactionAux, runStatements, List.foldl_cons]
    rw [if_neg (by simp)]
    exact ih (i + 1) (f st)

theorem runStatements_append (l1 l2 : List (OrgState → OrgState))
    (st : OrgState) :
    runStatements (l1 ++ l2) st = runStatements l2 (runStatements l1 st) := by
  simp [runStatements, List.foldl_append]

theorem runStatements_deptChunks :
    ∀ (chunks : List (List OrgDepartmentRow)) (st : OrgState),
      runStatements (chunks.map deptChunkStatement) st
        = { st with departments := (chunks.flatten.foldl
            (fun acc row => upsertRowBy deptConflict (fun _ => row) row acc)
            st.departments) } := by
  intro chunks
  induction chunks with
  | nil => intro st; rfl
  | cons b bs ih =>
    intro st
    have h1 : runStatements
        (deptChunkStatement b :: List.map deptChunkStatement bs) st
        = runStatements (List.map deptChunkStatement bs)
            (deptChunkStatement b st) := rfl
    rw [List.map_cons, h1, ih]
    simp [deptChunkStatement, List.foldl_append]

theorem runStatements_userChunks :
    ∀ (chunks : List (List OrgUserRow)) (st : OrgState),
      runStatements (chunks.map userChunkStatement) st
        = { st with users := (chunks.flatten.foldl
            (fun acc row => upsertRowBy orgUserConflict (fun _ => row) row acc)
            st.users) } := by
  intro chunks
  induction chunks with
  | nil => intro st; rfl
  | cons b bs ih =>
    intro st
    have h1 : runStatements
        (userChunkStatement b :: List.map userChunkStatement bs) st
        = runStatements (List.map userChunkStatement bs)
            (userChunkStatement b st) := rfl
    rw [List.map_cons, h1, ih]
    simp [userChunkStatement, List.foldl_append]

theorem runStatements_relChunks :
    ∀ (chunks : List (List OrgRelationRow)) (st : OrgState),
      runStatements (chunks.map relChunkStatement) st
        = { st with relations := st.relations ++ chunks.flatten } := by
  intro chunks
  induction chunks with
  | nil => intro st; simp [runStatements]
  | cons b bs ih =>
    intro st
    have h1 : runStatements
        (relChunkStatement b :: List.map relChunkStatement bs) st
        = runStatements (List.map relChunkStatement bs)
            (relChunkStatement b st) := rfl
    rw [List.map_cons, h1, ih]
    simp [relChunkStatement]

theorem runStatements_directory (tenant : String) (data : DirectoryData)
    (st : OrgState) :
    runStatements (directoryStatements tenant data) st
      = applyDirectoryWrite tenant data st := by
  unfold directoryStatements
  simp only [runStatements_append]
  have hdept : ∀ st2 : OrgState, runStatements
      (if data.departments.length > 0 then
        (chunkRows (deptRowsOf tenant data) WRITE_BATCH_SIZE).map
          deptChunkStatement
      else []) st2
      = { st2 with departments := ((deptRowsOf tenant data).foldl
          (fun acc row => upsertRowBy deptConflict (fun _ => row) row acc)
          st2.departments) } := by
    intro st2
    by_cases hd : data.departments.length > 0
    · rw [if_pos hd, runStatements_deptChunks, chunkRows_join]
    · have hnil : data.departments = [] :=
        List.length_eq_zero.mp (by omega)
      have hrows : deptRowsOf tenant data = [] := by
        simp [deptRowsOf, hnil]
      rw [if_neg hd]
      simp [runStatements, hrows]
  have huser : ∀ st2 : OrgState, runStatements
      (if data.users.length > 0 then
        (chunkRows (userRowsOf tenant data) WRITE_BATCH_SIZE).map
          userChunkStatement
      else []) st2
      = { st2 with users := ((userRowsOf tenant data).foldl
          (fun acc row => upsertRowBy orgUserConflict (fun _ => row) row acc)
          st2.users) } := by
    intro st2
    by_cases hu : data.users.length > 0
    · rw [if_pos hu, runStatements_userChunks, chunkRows_join]
    · have hnil : data.users = [] := List.length_eq_zero.mp (by omega)
      have hrows : userRowsOf tenant data = [] := by
        simp [userRowsOf, hnil]
      rw [if_neg hu]
      simp [runStatements, hrows]
  have hrel : ∀ st2 : OrgState, runStatements
      (if data.relations.length > 0 then
        (chunkRows (relRowsOf tenant data) WRITE_BATCH_SIZE).map
          relChunkStatement
      else []) st2
      = { st2 with relations := st2.relations ++ relRowsOf tenant data } := by
    intro st2
    by_cases hr : data.relations.length > 0
    · rw [if_pos hr, runStatements_relChunks, chunkRows_join]
    · have hnil : data.relations = [] := List.length_eq_zero.mp (by omega)
      have hrows : relRowsOf tenant data = [] := by
        simp [relRowsOf, hnil]
      rw [if_neg hr]
      simp [runStatements, hrows]
  rw [hdept, huser]
  have hdel : runStatements [deleteRelationsStatement tenant]
      ({ st with
          departments := ((deptRowsOf tenant data).foldl
            (fun acc row => upsertRowBy deptConflict (fun _ => row) row acc)
            st.departments)
          users := ((userRowsOf tenant data).foldl
            (fun acc row => upsertRowBy orgUserConflict (fun _ => row) row acc)
            st.users) })
      = { st with
          departments := ((deptRowsOf tenant data).foldl
            (fun acc row => upsertRowBy deptConflict (fun _ => row) row acc)
            st.departments)
          users := ((userRowsOf tenant data).foldl
            (fun acc row => upsertRowBy orgUserConflict (fun _ => row) row acc)
            st.users)
          relations := (st.relations.filter
            (fun r => !(r.tenantKey == tenant))) } := rfl
  rw [hdel, hrel]
  rfl

theorem upsertRowBy_mem_or_conflict (c : α → α → Bool) (u : α → α) (row : α)
    (l : List α) :
    ∀ y ∈ l, y ∈ upsertRowBy c u row l
      ∨ (c row y = true ∧ u y ∈ upsertRowBy c u row l) := by
  induction l with
  | nil => simp
  | cons x xs ih =>
    intro y hy
    rcases List.mem_cons.mp hy with heq | hmem
    · subst heq
      cases hc : c row y
      · left
        simp [upsertRowBy, hc]
      · right
        exact ⟨rfl, by simp [upsertRowBy, hc]⟩
    · cases hc : c row x
      · rcases ih y hmem with h | ⟨hcy, h⟩
        · left
          simp [upsertRowBy, hc, h]
        · right
          exact ⟨hcy, by simp [upsertRowBy, hc, h]⟩
      · left
        simp [upsertRowBy, hc, hmem]

theorem deptKeys_present :
    ∀ (newRows : List OrgDepartmentRow) (rows : List OrgDepartmentRow),
      ∀ d ∈ rows, ∃ d2 ∈ newRows.foldl
          (fun acc row => upsertRowBy deptConflict (fun _ => row) row acc)
          rows,
        d2.tenantKey = d.tenantKey ∧ d2.departmentId = d.departmentId := by
  intro newRows
  induction newRows with
  | nil => exact fun rows d hd => ⟨d, hd, rfl, rfl⟩
  | cons r rs ih =>
    intro rows d hd
    rcases upsertRowBy_mem_or_conflict deptConflict (fun _ => r) r rows d hd
      with h | ⟨hc, h⟩
    · exact ih (upsertRowBy deptConflict (fun _ => r) r rows) d h
    · obtain ⟨d2, hd2, ht, hid⟩ :=
        ih (upsertRowBy deptConflict (fun _ => r) r rows) r h
      refine ⟨d2, hd2, ?_, ?_⟩
      · rw [ht]
        simp [deptConflict] at hc
        exact hc.1
      · rw [hid]
        simp [deptConflict] at hc
        exact hc.2

theorem userKeys_present :
    ∀ (newRows : List OrgUserRow) (rows : List OrgUserRow),
      ∀ u ∈ rows, ∃ u2 ∈ newRows.foldl
          (fun acc row => upsertRowBy orgUserConflict (fun _ => row) row acc)
          rows,
        u2.tenantKey = u.tenantKey ∧ u2.userKey = u.userKey := by
  intro newRows
  induction newRows with
  | nil => exact fun rows u hu => ⟨u, hu, rfl, rfl⟩
  | cons r rs ih =>
    intro rows u hu
    rcases upsertRowBy_mem_or_conflict orgUserConflict (fun _ => r) r rows u hu
      with h | ⟨hc, h⟩
    · exact ih (upsertRowBy orgUserConflict (fun _ => r) r rows) u h
    · obtain ⟨u2, hu2, ht, hid⟩ :=
        ih (upsertRowBy orgUserConflict (fun _ => r) r rows) r h
      refine ⟨u2, hu2, ?_, ?_⟩
      · rw [ht]
        simp [orgUserConflict] at hc
        exact hc.1
      · rw [hid]
        simp [orgUserConflict] at hc
        exact hc.2

theorem relRowsOf_tenant (tenant : String) (data : DirectoryData) :
    ∀ r ∈ relRowsOf tenant data, (r.tenantKey == tenant) = true := by
  intro r hr
  rcases List.mem_map.mp hr with ⟨rel, _, hrel⟩
  subst hrel
  simp [orgRelationRowOf]

/-- C3: directory sync is a transactional full-snapshot replacement.  On the
success path the tenant's relation rows equal exactly the freshly computed
relation list (every prior relation row of the tenant is gone), other
tenants' relation rows are untouched, and every previously stored department
and user row is still present under its key (departments/users are only
upserted, never deleted); the commit publishes the state the caller sees.
On any statement failure the transaction rolls back: the published state is
exactly the state from before the sync, and the error is rethrown. -/
theorem runLarkDirectorySync_snapshot (tenant : String) (data : DirectoryData)
    (st : OrgState) :
    ((runLarkDirectorySync tenant data none st).2.relations.filter
        (fun r => r.tenantKey == tenant) = relRowsOf tenant data)
    ∧ ((runLarkDirectorySync tenant data none st).2.relations.filter
        (fun r => !(r.tenantKey == tenant))
      = st.relations.filter (fun r => !(r.tenantKey == tenant)))
    ∧ (∀ d ∈ st.departments,
        ∃ d2 ∈ (runLarkDirectorySync tenant data none st).2.departments,
          d2.tenantKey = d.tenantKey ∧ d2.departmentId = d.departmentId)
    ∧ (∀ u ∈ st.users,
        ∃ u2 ∈ (runLarkDirectorySync tenant data none st).2.users,
          u2.tenantKey = u.tenantKey ∧ u2.userKey = u.userKey)
    ∧ ((runLarkDirectorySync tenant data none st).1
        = Except.ok (runLarkDirectorySync tenant data none st).2)
    ∧ (∀ (i : Nat) (e : String) (stPub : OrgState),
        runLarkDirectorySync tenant data (some i) st = (Except.error e, stPub) →
        stPub = st) := by
  have hrun : runLarkDirectorySync tenant data none st
      = (Except.ok (applyDirectoryWrite tenant data st),
         applyDirectoryWrite tenant data st) := by
    unfold runLarkDirectorySync
    rw [runTransactionAux_none, runStatements_directory]
  refine ⟨?_, ?_, ?_, ?_, ?_, ?_⟩
  · rw [hrun]
    show ((st.relations.filter (fun r => !(r.tenantKey == tenant)))
        ++ relRowsOf tenant data).filter (fun r => r.tenantKey == tenant)
      = relRowsOf tenant data
    rw [List.filter_append]
    have h1 : (st.relations.filter (fun r => !(r.tenantKey == tenant))).filter
        (fun r => r.tenantKey == tenant) = [] := by
      rw [List.filter_eq_nil_iff]
      intro a ha
      have := List.of_mem_filter ha
      simp at this
      simp [this]
    have h2 : (relRowsOf tenant data).filter (fun r => r.tenantKey == tenant)
        = relRowsOf tenant data :=
      List.filter_eq_self.mpr (relRowsOf_tenant tenant data)
    rw [h1, h2, List.nil_append]
  · rw [hrun]
    show ((st.relations.filter (fun r => !(r.tenantKey == tenant)))
        ++ relRowsOf tenant data).filter (fun r => !(r.tenantKey == tenant))
      = st.relations.filter (fun r => !(r.tenantKey == tenant))
    rw [List.filter_append]
    have h1 : (st.relations.filter (fun r => !(r.tenantKey == tenant))).filter
        (fun r => !(r.tenantKey == tenant))
        = st.relations.filter (fun r => !(r.tenantKey == tenant)) :=
      List.filter_eq_self.mpr (fun a ha =>
        List.of_mem_filter
          (p := fun r : OrgRelationRow => !(r.tenantKey == tenant)) ha)
    have h2 : (relRowsOf tenant data).filter
        (fun r => !(r.tenantKey == tenant)) = [] := by
      rw [List.filter_eq_nil_iff]
      intro a ha
      simp [relRowsOf_tenant tenant data a ha]
    rw [h1, h2, List.append_nil]
  · rw [hrun]
    exact fun d hd => deptKeys_present (deptRowsOf tenant data)
      st.departments d hd
  · rw [hrun]
    exact fun u hu => userKeys_present (userRowsOf tenant data) st.users u hu
  · rw [hrun]
  · intro i e stPub h
    unfold runLarkDirectorySync at h
    cases hcase : runTransactionAux (directoryStatements tenant data) 0
        (some i) st with
    | ok st2 =>
      rw [hcase] at h
      simp at h
    | error e2 =>
      rw [hcase] at h
      simp at h
      exact h.2.symm

theorem runTransactionAux_fail_head (stmts : List (OrgState → OrgState))
    (st : OrgState) (h : stmts ≠ []) :
    runTransactionAux stmts 0 (some 0) st = Except.error "statement failed" := by
  cases stmts with
  | nil => exact absurd rfl h
  | cons f fs => simp [runTransactionAux]

theorem directoryStatements_ne_nil (tenant : String) (data : DirectoryData) :
    directoryStatements tenant data ≠ [] := by
  intro h
  have hlen := congrArg List.length h
  simp [directoryStatements, List.length_append] at hlen

def deptRow1 : OrgDepartmentRow :=
  { tenantKey := "t1", departmentId := "d1", name := "Dept One",
    parentDepartmentId := none, leaderUserId := none, status := none,
    memberCount := none }

def deptRow2 : OrgDepartmentRow :=
  { tenantKey := "t1", departmentId := "d2", name := "Dept Two",
    parentDepartmentId := none, leaderUserId := none, status := none,
    memberCount := none }

def userRow1 : OrgUserRow :=
  { tenantKey := "t1", userKey := "u1", openId := some "u1", userId := none,
    unionId := none, name := some "User", email := none, mobile := none,
    status := none, jobTitle := none }

/-- Pre-sync snapshot: u1 related to d1 (primary) and d2. -/
def orgSt0 : OrgState :=
  { departments := [deptRow1, deptRow2]
    users := [userRow1]
    relations := [⟨"t1", "u1", "d1", true⟩, ⟨"t1", "u1", "d2", false⟩] }

/-- Fresh sync data reporting only (u1, d3, primary). -/
def syncData : DirectoryData :=
  { departments := [⟨"d3", some "Dept Three", none, none, none, none⟩]
    users := [("u1", { user_id := some "u1" })]
    relations := [⟨"u1", "d3", true⟩] }

theorem runLarkDirectorySync_snapshot_witness :
    ((runLarkDirectorySync "t1" syncData none orgSt0).2.relations.filter
        (fun r => r.tenantKey == "t1") = relRowsOf "t1" syncData)
    ∧ ((runLarkDirectorySync "t1" syncData none orgSt0).2.relations.filter
        (fun r => !(r.tenantKey == "t1"))
      = orgSt0.relations.filter (fun r => !(r.tenantKey == "t1")))
    ∧ (∃ d2 ∈ (runLarkDirectorySync "t1" syncData none orgSt0).2.departments,
        d2.tenantKey = deptRow1.tenantKey
          ∧ d2.departmentId = deptRow1.departmentId)
    ∧ (∃ u2 ∈ (runLarkDirectorySync "t1" syncData none orgSt0).2.users,
        u2.tenantKey = userRow1.tenantKey ∧ u2.userKey = userRow1.userKey)
    ∧ ((runLarkDirectorySync "t1" syncData none orgSt0).1
        = Except.ok (runLarkDirectorySync "t1" syncData none orgSt0).2)
    ∧ orgSt0 = orgSt0 := by
  have h := runLarkDirectorySync_snapshot "t1" syncData orgSt0
  exact ⟨h.1, h.2.1, h.2.2.1 deptRow1 (by decide),
    h.2.2.2.1 userRow1 (by decide), h.2.2.2.2.1,
    h.2.2.2.2.2 0 "statement failed" orgSt0 (by
      unfold runLarkDirectorySync
      rw [runTransactionAux_fail_head _ _
        (directoryStatements_ne_nil "t1" syncData)])⟩

/-! ## Extraction lifecycle (src: src/extensions/lark/src/extraction.ts)

The OCR, ASR and docx capabilities are external collaborators, modelled as
functions returning either a thrown error or a result; the memory sink
(`recordLarkMemoryFromExtraction`, part_008) is modelled at its call
boundary as a forward log of `(tenantKey, messageId, content)` invocations —
its internal filtering belongs to the memory collaborator.  The
`content_extraction` table has unique key `uniq_content_resource
(tenant_key, resource_id)`; its `ON DUPLICATE KEY UPDATE` clause rewrites
only `language`, `text`, `model`, `status` and `error` (not `message_id` or
`resource_type`).  `ORDER BY r.updated_at` is list order. -/

def EXTRACTION_BATCH_SIZE : Nat := 5

/-- JS `toLowerCase` over the character list (ASCII range, which covers the
kind strings and file extensions the worker compares). -/
def lowerChar (c : Char) : Char :=
  if 65 ≤ c.toNat ∧ c.toNat ≤ 90 then Char.ofNat (c.toNat + 32) else c

def lowerStr (s : String) : String := String.mk (s.data.map lowerChar)

/-- JS `endsWith` over the character list. -/
def strEndsWith (s t : String) : Bool := t.data.isSuffixOf s.data

structure ExtractionTask where
  resourceId : Nat
  messageId : String
  resourceType : String
  storagePath : String
  fileName : Option String
  deriving Repr, DecidableEq

inductive ExtractionStatus
  | processing
  | ready
  | empty
  | failed
  deriving Repr, DecidableEq

structure ExtractionRow where
  tenantKey : String
  messageId : String
  resourceId : Nat
  resourceType : String
  language : Option String
  text : Option String
  model : Option String
  status : ExtractionStatus
  error : Option String
  deriving Repr, DecidableEq

structure OcrConfig where
  enabled : Option Bool := none
  languages : Option (List String) := none
  deriving Repr, DecidableEq

structure AsrConfig where
  enabled : Option Bool := none
  apiKey : Option String := none
  model : Option String := none
  language : Option String := none
  deriving Repr, DecidableEq

structure DocxConfig where
  enabled : Option Bool := none
  deriving Repr, DecidableEq

structure ExtractionConfig where
  enabled : Option Bool := none
  ocr : Option OcrConfig := none
  asr : Option AsrConfig := none
  docx : Option DocxConfig := none
  deriving Repr, DecidableEq

structure CapabilityResult where
  text : String
  model : String
  deriving Repr, DecidableEq

structure ExtractionEnv where
  ocr : String → List String → Except String CapabilityResult
  asr : String → String → String → Option String →
    Except String CapabilityResult
  docx : String → Except String String
  openAiKeyEnv : Option String

structure ExtractionState where
  resources : List ResourceRow
  extractions : List ExtractionRow
  memory : List (String × String × String)
  deriving Repr, DecidableEq

def resourceTypeName : LarkResourceType → String
  | LarkResourceType.image => "image"
  | LarkResourceType.file => "file"
  | LarkResourceType.audio => "audio"
  | LarkResourceType.media => "media"
  | LarkResourceType.doc => "doc"

def taskOfResource (r : ResourceRow) : ExtractionTask :=
  { resourceId := r.id
    messageId := r.messageId
    resourceType := resourceTypeName r.resourceType
    storagePath := r.storagePath.getD ""
    fileName := r.fileName }

/-- Model of `listPendingExtractions`: ready resources of the tenant whose extraction
row is absent or `failed`, batched, then the JS truthiness filter on
resource id and storage path. -/
def listPendingExtractions (tenant : String) (st : ExtractionState) :
    List ExtractionTask :=
  let candidates := st.resources.filter (fun r =>
    r.tenantKey == tenant && r.status == ResourceStatus.ready &&
    (match st.extractions.find? (fun e =>
        e.tenantKey == r.tenantKey && e.resourceId == r.id) with
     | none => true
     | some e => e.status == ExtractionStatus.failed))
  ((candidates.take EXTRACTION_BATCH_SIZE).map taskOfResource).filter
    (fun t => t.resourceId != 0 && t.storagePath != "")

def extractionConflict (a b : ExtractionRow) : Bool :=
  a.tenantKey == b.tenantKey && a.resourceId == b.resourceId

/-- Model of `upsertExtraction` (extraction.ts): insert keyed on
`(tenant_key, resource_id)`; the duplicate-key update rewrites language,
text, model, status and error only. -/
def upsertExtraction (tenant : String) (messageId : String) (resourceId : Nat)
    (rtype : String) (status : ExtractionStatus)
    (text language model err : Option String) (rows : List ExtractionRow) :
    List ExtractionRow :=
  let row : ExtractionRow :=
    { tenantKey := tenant, messageId := messageId, resourceId := resourceId,
      resourceType := rtype, language := language, text := text,
      model := model, status := status, error := err }
  upsertRowBy extractionConflict
    (fun old => { old with
      language := language
      text := text
      model := model
      status := status
      error := err }) row rows

/-- Forwarding boundary to the memory collaborator. -/
def recordLarkMemoryFromExtraction (tenant messageId content : String)
    (st : ExtractionState) : ExtractionState :=
  { st with memory := st.memory ++ [(tenant, messageId, content)] }

/-- Model of `processExtractionTask` (extraction.ts): per-kind dispatch.  Capability
errors propagate to the queue's catch; every state change in a branch
happens after its capability call succeeded. -/
def processExtractionTask (env : ExtractionEnv) (cfg : ExtractionConfig)
    (tenant : String) (task : ExtractionTask) (st : ExtractionState) :
    Except String ExtractionState :=
  if cfg.enabled = some false then Except.ok st
  else
    let rtype := lowerStr task.resourceType
    if rtype = "image" then
      if (cfg.ocr.bind (fun o => o.enabled)) = some false then Except.ok st
      else
        let languages := (cfg.ocr.bind (fun o => o.languages)).getD []
        match env.ocr task.storagePath languages with
        | Except.error e => Except.error e
        | Except.ok result =>
          let st2 := { st with extractions := (upsertExtraction tenant
            task.messageId task.resourceId rtype
            (if result.text ≠ "" then ExtractionStatus.ready
              else ExtractionStatus.empty)
            (some result.text) languages.head? (some result.model) none
            st.extractions) }
          if result.text ≠ "" then
            Except.ok (recordLarkMemoryFromExtraction tenant task.messageId
              result.text st2)
          else Except.ok st2
    else if rtype = "audio" then
      if (cfg.asr.bind (fun a => a.enabled)) = some false then Except.ok st
      else
        match ((cfg.asr.bind (fun a => a.apiKey)).bind (fun s =>
            if s.trim = "" then none else some s.trim)).orElse
            (fun _ => env.openAiKeyEnv) with
        | none =>
          Except.ok { st with extractions := (upsertExtraction tenant
            task.messageId task.resourceId rtype ExtractionStatus.failed
            none none none (some "missing OpenAI API key") st.extractions) }
        | some apiKey =>
          let model := match (cfg.asr.bind (fun a => a.model)).bind (fun s =>
            if s.trim = "" then none else some s.trim) with
            | some m => m
            | none => "gpt-4o-transcribe"
          match env.asr task.storagePath apiKey model
              (cfg.asr.bind (fun a => a.language)) with
          | Except.error e => Except.error e
          | Except.ok result =>
            let st2 := { st with extractions := (upsertExtraction tenant
              task.messageId task.resourceId rtype
              (if result.text ≠ "" then ExtractionStatus.ready
                else ExtractionStatus.empty)
              (some result.text) (cfg.asr.bind (fun a => a.language))
              (some result.model) none st.extractions) }
            if result.text ≠ "" then
              Except.ok (recordLarkMemoryFromExtraction tenant task.messageId
                result.text st2)
            else Except.ok st2
    else if rtype = "file" then
      if (cfg.docx.bind (fun d => d.enabled)) = some false then Except.ok st
      else
        let fileName := lowerStr (task.fileName.getD "")
        if !(strEndsWith fileName ".docx") then Except.ok st
        else
          match env.docx task.storagePath with
          | Except.error e => Except.error e
          | Except.ok text =>
            let st2 := { st with extractions := (upsertExtraction tenant
              task.messageId task.resourceId "docx"
              (if text ≠ "" then ExtractionStatus.ready
                else ExtractionStatus.empty)
              (some text) none (some "docx") none st.extractions) }
            if text ≠ "" then
              Except.ok (recordLarkMemoryFromExtraction tenant task.messageId
                text st2)
            else Except.ok st2
    else Except.ok st

/-- Loop body of `processExtractionQueue` for one selected task: write the
`processing` marker row, dispatch, and catch any dispatch error into a
`failed` row. -/
def processQueueTask (env : ExtractionEnv) (cfg : ExtractionConfig)
    (tenant : String) (task : ExtractionTask) (st : ExtractionState) :
    ExtractionState :=
  let st1 := { st with extractions := (upsertExtraction tenant task.messageId
    task.resourceId task.resourceType ExtractionStatus.processing
    none none none none st.extractions) }
  match processExtractionTask env cfg tenant task st1 with
  | Except.ok st2 => st2
  | Except.error e =>
    { st1 with extractions := (upsertExtraction tenant task.messageId
      task.resourceId task.resourceType ExtractionStatus.failed
      none none none (some e) st1.extractions) }

/-- Model of `processExtractionQueue` (extraction.ts): drain to empty, with explicit
fuel for the unbounded while-loop. -/
def processExtractionQueue (env : ExtractionEnv) (cfg : ExtractionConfig)
    (tenant : String) : Nat → ExtractionState → Option ExtractionState
  | 0, st =>
    if (listPendingExtractions tenant st).isEmpty then some st else none
  | Nat.succ fuel, st =>
    let pending := listPendingExtractions tenant st
    if pending.isEmpty then some st
    else processExtractionQueue env cfg tenant fuel
      (pending.foldl (fun acc t => processQueueTask env cfg tenant t acc) st)

/-- The marker row written by the queue before dispatching a task. -/
def processingRow (tenant : String) (task : ExtractionTask) : ExtractionRow :=
  { tenantKey := tenant, messageId := task.messageId,
    resourceId := task.resourceId, resourceType := task.resourceType,
    language := none, text := none, model := none,
    status := ExtractionStatus.processing, error := none }

theorem processExtractionQueue_stable (env : ExtractionEnv)
    (cfg : ExtractionConfig) (tenant : String) (st : ExtractionState)
    (h : listPendingExtractions tenant st = []) :
    ∀ n, processExtractionQueue env cfg tenant n st = some st := by
  intro n
  cases n <;> simp [processExtractionQueue, h]

def pdfResource : ResourceRow :=
  { id := 1, tenantKey := "t1", messageId := "om_1", chatId := "oc_1",
    resourceType := LarkResourceType.file, fileKey := "fk_pdf",
    fileName := some "report.pdf", mimeType := some "application/pdf",
    sizeBytes := some 10, status := ResourceStatus.ready,
    storagePath := some "resources/om_1/report.pdf",
    storageUrl := some "resources/om_1/report.pdf",
    error := none, attempts := 1 }

def stubExtractionEnv : ExtractionEnv :=
  { ocr := fun _ _ => Except.error "unused"
    asr := fun _ _ _ _ => Except.error "unused"
    docx := fun _ => Except.ok "unused"
    openAiKeyEnv := none }

def pdfState : ExtractionState := ⟨[pdfResource], [], []⟩

/-- C6 counterexample: a ready `file` resource named `report.pdf` (no .docx
extension) is selected by the queue, which writes its `processing` marker
row before dispatch; the dispatch then skips the file, so afterwards the
extraction table holds exactly one row for that resource id (status
`processing`, no text) — not zero rows as the claim states. -/
theorem extraction_pdf_leaves_processing_row :
    (processExtractionQueue stubExtractionEnv {} "t1" 1 pdfState).map
        (fun st => st.extractions.map (fun e => (e.resourceId, e.status, e.text)))
      = some [(1, ExtractionStatus.processing, none)]
    ∧ (processExtractionQueue stubExtractionEnv {} "t1" 1 pdfState).map
        (fun st => st.memory) = some [] := by
  constructor
  · rfl
  · rfl

/-- C6 amended: processing a selected `file` resource whose name does not
end in `.docx` skips the extraction itself — no capability runs, no text or
result row is recorded, and no memory record is forwarded — but the queue's
pre-dispatch bookkeeping leaves exactly one extraction row for that resource
id: the `processing` marker with no text.  That marker also excludes the
resource from subsequent selections. -/
theorem extraction_skips_non_docx_file (env : ExtractionEnv)
    (cfg : ExtractionConfig) (tenant : String) (r : ResourceRow)
    (mem0 : List (String × String × String)) (fuel : Nat) (p : String)
    (ht : r.tenantKey = tenant) (hst : r.status = ResourceStatus.ready)
    (htype : r.resourceType = LarkResourceType.file)
    (hname : strEndsWith (lowerStr (r.fileName.getD "")) ".docx" = false)
    (hpath : r.storagePath = some p) (hp : p ≠ "") (hid : r.id ≠ 0)
    (hfuel : 1 ≤ fuel) :
    processExtractionQueue env cfg tenant fuel ⟨[r], [], mem0⟩
      = some ⟨[r], [processingRow tenant (taskOfResource r)], mem0⟩
    ∧ (processingRow tenant (taskOfResource r)).status
        = ExtractionStatus.processing
    ∧ (processingRow tenant (taskOfResource r)).text = none
    ∧ listPendingExtractions tenant
        ⟨[r], [processingRow tenant (taskOfResource r)], mem0⟩ = [] := by
  have hpend : listPendingExtractions tenant ⟨[r], [], mem0⟩
      = [taskOfResource r] := by
    simp [listPendingExtractions, taskOfResource, ht, hst, hpath, hid, hp,
      EXTRACTION_BATCH_SIZE]
  have hlowfile : lowerStr (resourceTypeName LarkResourceType.file) = "file" := by
    decide
  have hstep : processQueueTask env cfg tenant (taskOfResource r)
      ⟨[r], [], mem0⟩
      = ⟨[r], [processingRow tenant (taskOfResource r)], mem0⟩ := by
    have hst1 : upsertExtraction tenant (taskOfResource r).messageId
        (taskOfResource r).resourceId (taskOfResource r).resourceType
        ExtractionStatus.processing none none none none []
        = [processingRow tenant (taskOfResource r)] := rfl
    have htask : processExtractionTask env cfg tenant (taskOfResource r)
        ⟨[r], [processingRow tenant (taskOfResource r)], mem0⟩
        = Except.ok ⟨[r], [processingRow tenant (taskOfResource r)], mem0⟩ := by
      unfold processExtractionTask
      by_cases hcfg : cfg.enabled = some false
      · rw [if_pos hcfg]
      · rw [if_neg hcfg]
        simp only [taskOfResource, htype, hlowfile]
        rw [if_neg (by decide : ¬ (("file" : String) = "image")),
          if_neg (by decide : ¬ (("file" : String) = "audio")),
          if_pos (trivial : True)]
        by_cases hdocx : (cfg.docx.bind (fun d => d.enabled)) = some false
        · rw [if_pos hdocx]
        · rw [if_neg hdocx]
          rw [if_pos (by simp [hname])]
    simp only [processQueueTask, hst1, htask]
  have hpend2 : listPendingExtractions tenant
      ⟨[r], [processingRow tenant (taskOfResource r)], mem0⟩ = [] := by
    simp [listPendingExtractions, processingRow, taskOfResource, ht, hst,
      List.find?, EXTRACTION_BATCH_SIZE]
  obtain ⟨m, rfl⟩ : ∃ m, fuel = m + 1 := ⟨fuel - 1, by omega⟩
  refine ⟨?_, rfl, rfl, hpend2⟩
  show processExtractionQueue env cfg tenant (m + 1) ⟨[r], [], mem0⟩ = _
  rw [show processExtractionQueue env cfg tenant (m + 1) ⟨[r], [], mem0⟩
      = processExtractionQueue env cfg tenant m
          ((listPendingExtractions tenant ⟨[r], [], mem0⟩).foldl
            (fun acc t => processQueueTask env cfg tenant t acc)
            ⟨[r], [], mem0⟩) from by
    simp [processExtractionQueue, hpend]]
  rw [hpend]
  simp only [List.foldl_cons, List.foldl_nil, hstep]
  exact processExtractionQueue_stable env cfg tenant _ hpend2 m

theorem extraction_skips_non_docx_file_witness :
    processExtractionQueue stubExtractionEnv {} "t1" 1
        ⟨[pdfResource], [], []⟩
      = some ⟨[pdfResource], [processingRow "t1" (taskOfResource pdfResource)],
          []⟩
    ∧ (processingRow "t1" (taskOfResource pdfResource)).status
        = ExtractionStatus.processing
    ∧ (processingRow "t1" (taskOfResource pdfResource)).text = none
    ∧ listPendingExtractions "t1"
        ⟨[pdfResource], [processingRow "t1" (taskOfResource pdfResource)], []⟩
      = [] :=
  extraction_skips_non_docx_file stubExtractionEnv {} "t1" pdfResource [] 1
    "resources/om_1/report.pdf" rfl rfl rfl (by decide) rfl (by decide)
    (by decide) (by decide)

/-- C7: OCR empty vs failed.  For an image task (with extraction and OCR not
disabled): an OCR call returning an empty string records the extraction row
with status `empty` (over the `processing` marker) and forwards nothing to
the memory sink; an OCR call that throws is caught by the queue and recorded
as status `failed` with the error text, again forwarding nothing; a memory
record is forwarded exactly when the extracted text is non-empty. -/
theorem ocr_empty_vs_failed (env : ExtractionEnv) (cfg : ExtractionConfig)
    (tenant : String) (task : ExtractionTask) (st : ExtractionState)
    (htype : task.resourceType = "image")
    (hcfg : cfg.enabled ≠ some false)
    (hocr : (cfg.ocr.bind (fun o => o.enabled)) ≠ some false) :
    (∀ m : String, env.ocr task.storagePath
        ((cfg.ocr.bind (fun o => o.languages)).getD []) = Except.ok ⟨"", m⟩ →
      processQueueTask env cfg tenant task st
        = { st with extractions := (upsertExtraction tenant task.messageId
            task.resourceId "image" ExtractionStatus.empty (some "")
            ((cfg.ocr.bind (fun o => o.languages)).getD []).head? (some m)
            none
            (upsertExtraction tenant task.messageId task.resourceId
              task.resourceType ExtractionStatus.processing none none none
              none st.extractions)) }
      ∧ (processQueueTask env cfg tenant task st).memory = st.memory)
    ∧ (∀ msg : String, env.ocr task.storagePath
        ((cfg.ocr.bind (fun o => o.languages)).getD []) = Except.error msg →
      processQueueTask env cfg tenant task st
        = { st with extractions := (upsertExtraction tenant task.messageId
            task.resourceId task.resourceType ExtractionStatus.failed none
            none none (some msg)
            (upsertExtraction tenant task.messageId task.resourceId
              task.resourceType ExtractionStatus.processing none none none
              none st.extractions)) }
      ∧ (processQueueTask env cfg tenant task st).memory = st.memory)
    ∧ (∀ (txt m : String), env.ocr task.storagePath
        ((cfg.ocr.bind (fun o => o.languages)).getD []) = Except.ok ⟨txt, m⟩ →
      txt ≠ "" →
      (processQueueTask env cfg tenant task st).memory
        = st.memory ++ [(tenant, task.messageId, txt)]) := by
  have hlow : lowerStr "image" = "image" := by decide
  refine ⟨?_, ?_, ?_⟩
  · intro m hokm
    have h : processQueueTask env cfg tenant task st
        = { st with extractions := (upsertExtraction tenant task.messageId
            task.resourceId "image" ExtractionStatus.empty (some "")
            ((cfg.ocr.bind (fun o => o.languages)).getD []).head? (some m)
            none
            (upsertExtraction tenant task.messageId task.resourceId
              task.resourceType ExtractionStatus.processing none none none
              none st.extractions)) } := by
      simp [processQueueTask, processExtractionTask, htype, hlow, hcfg, hocr,
        hokm]
    exact ⟨h, by rw [h]⟩
  · intro msg hmsg
    have h : processQueueTask env cfg tenant task st
        = { st with extractions := (upsertExtraction tenant task.messageId
            task.resourceId task.resourceType ExtractionStatus.failed none
            none none (some msg)
            (upsertExtraction tenant task.messageId task.resourceId
              task.resourceType ExtractionStatus.processing none none none
              none st.extractions)) } := by
      simp [processQueueTask, processExtractionTask, htype, hlow, hcfg, hocr,
        hmsg]
    exact ⟨h, by rw [h]⟩
  · intro txt m hokm htxt
    have h : processQueueTask env cfg tenant task st
        = recordLarkMemoryFromExtraction tenant task.messageId txt
            { st with extractions := (upsertExtraction tenant task.messageId
              task.resourceId "image" ExtractionStatus.ready (some txt)
              ((cfg.ocr.bind (fun o => o.languages)).getD []).head? (some m)
              none
              (upsertExtraction tenant task.messageId task.resourceId
                task.resourceType ExtractionStatus.processing none none none
                none st.extractions)) } := by
      simp [processQueueTask, processExtractionTask, htype, hlow, hcfg, hocr,
        hokm, htxt]
    rw [h]
    rfl

def imageTask : ExtractionTask :=
  { resourceId := 2, messageId := "om_9", resourceType := "image",
    storagePath := "resources/om_9/pic.png", fileName := some "pic.png" }

def emptyExtractionState : ExtractionState := ⟨[], [], []⟩

def ocrEmptyEnv : ExtractionEnv :=
  { ocr := fun _ _ => Except.ok ⟨"", "tesseract:eng"⟩
    asr := fun _ _ _ _ => Except.error "unused"
    docx := fun _ => Except.error "unused"
    openAiKeyEnv := none }

def ocrFailEnv : ExtractionEnv :=
  { ocr := fun _ _ => Except.error "ocr crashed"
    asr := fun _ _ _ _ => Except.error "unused"
    docx := fun _ => Except.error "unused"
    openAiKeyEnv := none }

def ocrTextEnv : ExtractionEnv :=
  { ocr := fun _ _ => Except.ok ⟨"hello world", "tesseract:eng"⟩
    asr := fun _ _ _ _ => Except.error "unused"
    docx := fun _ => Except.error "unused"
    openAiKeyEnv := none }

theorem ocr_empty_vs_failed_witness :
    (processQueueTask ocrEmptyEnv {} "t1" imageTask emptyExtractionState
        = { emptyExtractionState with extractions := (upsertExtraction "t1"
            imageTask.messageId imageTask.resourceId "image"
            ExtractionStatus.empty (some "")
            ((({} : ExtractionConfig).ocr.bind (fun o => o.languages)).getD
              []).head? (some "tesseract:eng") none
            (upsertExtraction "t1" imageTask.messageId imageTask.resourceId
              imageTask.resourceType ExtractionStatus.processing none none
              none none emptyExtractionState.extractions)) }
      ∧ (processQueueTask ocrEmptyEnv {} "t1" imageTask
          emptyExtractionState).memory = emptyExtractionState.memory)
    ∧ (processQueueTask ocrFailEnv {} "t1" imageTask emptyExtractionState
        = { emptyExtractionState with extractions := (upsertExtraction "t1"
            imageTask.messageId imageTask.resourceId imageTask.resourceType
            ExtractionStatus.failed none none none (some "ocr crashed")
            (upsertExtraction "t1" imageTask.messageId imageTask.resourceId
              imageTask.resourceType ExtractionStatus.processing none none
              none none emptyExtractionState.extractions)) }
      ∧ (processQueueTask ocrFailEnv {} "t1" imageTask
          emptyExtractionState).memory = emptyExtractionState.memory)
    ∧ (processQueueTask ocrTextEnv {} "t1" imageTask
        emptyExtractionState).memory
      = emptyExtractionState.memory ++ [("t1", imageTask.messageId,
          "hello world")] := by
  refine ⟨?_, ?_, ?_⟩
  · exact (ocr_empty_vs_failed ocrEmptyEnv {} "t1" imageTask
      emptyExtractionState rfl (by decide) (by decide)).1 "tesseract:eng" rfl
  · exact (ocr_empty_vs_failed ocrFailEnv {} "t1" imageTask
      emptyExtractionState rfl (by decide) (by decide)).2.1 "ocr crashed" rfl
  · exact (ocr_empty_vs_failed ocrTextEnv {} "t1" imageTask
      emptyExtractionState rfl (by decide) (by decide)).2.2 "hello world"
      "tesseract:eng" rfl (by decide)

end Clawdbot
